import Mathlib

/-!
# Wallet ledger: a shallow embedding of `internal/storage/postgres/postgres.go` and of the
handlers of `internal/handlers`

The database is modelled as its committed contents (the `wallets` and `operations`
tables).  A statement issued on the pool handle `s.db` is autocommitted: it reads and
writes the committed contents directly.  A statement issued on the transaction handle
`tx` is buffered and becomes part of the committed contents only when `tx.Commit()`
succeeds.  Every database call can fail; the failures, the generated identifier and the
clock are inputs of a call (`Env`).  The definition of the `wallets` table is not part of
the sources; following the spec, its balance column is taken to refuse negative values, so
that an `UPDATE` to a negative balance fails like any other failed statement.

Go's `int` is taken to be 64 bits wide; `+` and `-` wrap around (two's complement).
-/

namespace Wallet

/-! ## Machine integers -/

/-- Largest value of Go's `int` on a 64-bit platform. -/
def maxInt : Int := 9223372036854775807

/-- Smallest value of Go's `int` on a 64-bit platform. -/
def minInt : Int := -9223372036854775808

/-- Two's complement reduction of a mathematical integer to a 64-bit signed one. -/
def wrapInt (x : Int) : Int :=
  (x + 9223372036854775808) % 18446744073709551616 - 9223372036854775808

/-- Go's `a + b` on `int`. -/
def goAdd (a b : Int) : Int := wrapInt (a + b)

/-- Go's `a - b` on `int`. -/
def goSub (a b : Int) : Int := wrapInt (a - b)

/-! ## Errors -/

/-- Go error values, as far as the code tells them apart: the sentinel `sql.ErrNoRows`,
the zero-field type `requests.InsufficientFundsError`, a plain message
(`errors.New`, `fmt.Errorf` without `%w`, a driver error), and `fmt.Errorf("...: %w", e)`. -/
inductive Err where
  | ErrNoRows : Err
  | InsufficientFundsError : Err
  | msg : String → Err
  | wrap : String → Err → Err
  deriving DecidableEq, Repr

/-- The call `errors.Is(err, sql.ErrNoRows)`: follows the `%w` chain. -/
def Err.isErrNoRows : Err → Bool
  | .ErrNoRows => true
  | .InsufficientFundsError => false
  | .msg _ => false
  | .wrap _ e => e.isErrNoRows

/-- The call `errors.As(err, &insufficientFundsErr)`: follows the `%w` chain. -/
def Err.asInsufficientFunds : Err → Bool
  | .ErrNoRows => false
  | .InsufficientFundsError => true
  | .msg _ => false
  | .wrap _ e => e.asInsufficientFunds

/-! ## Data model -/

/-- The Go struct `requests.WalletOperationRequest`. -/
structure WalletOperationRequest where
  WalletID : String
  OperationType : String
  Amount : Int
  deriving DecidableEq, Repr

/-- Modelled from the spec: the Go struct `models.Wallets`, whose declaration is not among
the sources.  The spec gives a wallet an `id` and a `balance` (signed integer); the field
names are those `GetWallet` scans into and `ProcessOperation` reads. -/
structure Wallets where
  WalletID : String
  Balance : Int
  deriving DecidableEq, Repr

/-- The Go struct `models.Operation`: a row of the `operations` table (the field `Type` is
written `OpType`, `Type` being reserved). -/
structure Operation where
  ID : String
  WalletID : String
  OpType : String
  Amount : Int
  Timestamp : Nat
  deriving DecidableEq, Repr

/-- The Go struct `requests.WalletBalanceResponse`. -/
structure WalletBalanceResponse where
  WalletID : String
  Balance : Int
  deriving DecidableEq, Repr

/-- Committed contents of the database. -/
structure DB where
  wallets : List Wallets
  operations : List Operation
  deriving DecidableEq, Repr

/-- The database before any statement has run. -/
def DB.empty : DB := { wallets := [], operations := [] }

/-- Modelled from the spec: the column default of `wallets.balance`.  The migration files
that create the table are not part of the sources; the spec says a wallet is created
"with initial balance 0", and `ProcessOperation` itself continues with `Balance: 0`
after `CreateWallet`. -/
def walletsBalanceDefault : Int := 0

/-- What the environment decides for one call of `ProcessOperation`: for each database call
whether the driver fails it (with which message), the identifier returned by `genUUID()`
and the value of `time.Now()`. -/
structure Env where
  beginErr : Option String
  selectErr : Option String
  createErr : Option String
  updateErr : Option String
  insertErr : Option String
  commitErr : Option String
  newID : String
  now : Nat
  deriving DecidableEq, Repr

/-- An environment in which no database call fails. -/
def Env.ok (newID : String) (now : Nat) : Env :=
  { beginErr := none, selectErr := none, createErr := none, updateErr := none,
    insertErr := none, commitErr := none, newID := newID, now := now }

/-- State of the transaction begun by `ProcessOperation`. -/
inductive TxStatus where
  | active : TxStatus
  | committed : TxStatus
  | rolledBack : TxStatus
  deriving DecidableEq, Repr

/-- What a call of `ProcessOperation` leaves behind: the returned error (`none` is `nil`),
the committed contents of the database, and the state of the transaction at the moment the
function returns (`none` when `BeginTx` failed and there is no transaction). -/
structure Outcome where
  err : Option Err
  db : DB
  tx : Option TxStatus
  deriving DecidableEq, Repr

/-! ## SQL statements -/

/-- The statement `SELECT wallet_id, balance FROM wallets WHERE wallet_id = $1` read with
`QueryRow`: the first matching row. -/
def selectWallet (db : DB) (walletID : String) : Option Wallets :=
  db.wallets.find? (fun w => w.WalletID == walletID)

/-- The statement `INSERT INTO wallets (wallet_id) VALUES ($1)`. -/
def insertWallet (db : DB) (walletID : String) : DB :=
  { db with wallets := db.wallets ++ [{ WalletID := walletID, Balance := walletsBalanceDefault }] }

/-- Modelled from the spec: the constraint on the column `wallets.balance`.  The migration
files that create the table are not part of the sources; the spec describes the persisted
state as "a wallet table keyed by identifier with a non-negative balance column", so the
column takes a balance exactly when it is not negative. -/
def balanceColumnAccepts (balance : Int) : Bool :=
  decide (0 ≤ balance)

/-- The rows after `UPDATE wallets SET balance = $1 WHERE wallet_id = $2` has been carried
out, once the table has accepted the new balance (see `updateBalance`): every row of that
wallet id holds the new balance. -/
def setBalance (db : DB) (newBalance : Int) (walletID : String) : DB :=
  { db with wallets := db.wallets.map (fun w =>
      if w.WalletID == walletID then { w with Balance := newBalance } else w) }

/-- Modelled from the spec: the statement `UPDATE wallets SET balance = $1 WHERE
wallet_id = $2` on the `wallets` table, whose definition is not part of the sources.  The
statement is refused (`none`) when the column does not accept the new balance; in
`ProcessOperation` it addresses the row that has just been read or created. -/
def updateBalance (db : DB) (newBalance : Int) (walletID : String) : Option DB :=
  if balanceColumnAccepts newBalance then some (setBalance db newBalance walletID) else none

/-- The driver error of an `UPDATE` that the column constraint refuses (its text depends on
the schema, which is not part of the sources). -/
def balanceRefused : Err :=
  .msg "new row for relation wallets violates the constraint on balance"

/-- The statement `INSERT INTO operations (id, wallet_id, type, amount, timestamp) VALUES (...)`. -/
def insertOperation (db : DB) (o : Operation) : DB :=
  { db with operations := db.operations ++ [o] }

/-! ## Storage methods -/

/-- The method `Storage.CreateWallet`: one autocommitted `INSERT` on the pool handle `s.db`. -/
def CreateWallet (env : Env) (db : DB) (walletID : String) : Option Err × DB :=
  match env.createErr with
  | some m => (some (.wrap "database.CreateWallet" (.msg m)), db)
  | none => (none, insertWallet db walletID)

/-- The method `Storage.GetWallet`: one `SELECT` on the pool handle `s.db`; `Scan` gives
`sql.ErrNoRows` when no row matches. -/
def GetWallet (env : Env) (db : DB) (walletID : String) : Except Err Wallets :=
  match env.selectErr with
  | some m => .error (.wrap "database.GetWallet" (.msg m))
  | none =>
    match selectWallet db walletID with
    | none =>
      .error (.wrap ("database.GetWallet: wallet with id " ++ walletID ++ " not found") .ErrNoRows)
    | some w => .ok w

/-- Lines 91 to 105 of `ProcessOperation`: read the wallet and, when `GetWallet` reports
`sql.ErrNoRows`, create it with `CreateWallet` and continue with `Balance: 0`.  Returns the
wallet (or the error `ProcessOperation` returns) and the committed contents afterwards. -/
def findOrCreateWallet (env : Env) (db : DB) (req : WalletOperationRequest) :
    Except Err Wallets × DB :=
  match GetWallet env db req.WalletID with
  | .ok w => (.ok w, db)
  | .error e =>
    if e.isErrNoRows then
      match CreateWallet env db req.WalletID with
      | (some ce, db1) => (.error (.wrap "database.ProcessOperation: create wallet error" ce), db1)
      | (none, db1) => (.ok { WalletID := req.WalletID, Balance := 0 }, db1)
    else (.error (.wrap "database.ProcessOperation: get wallet error" e), db)

/-- Lines 106 to 117 of `ProcessOperation`: the `switch req.OperationType` that computes
`newBalance` or returns an error. -/
def newBalance (wallet : Wallets) (req : WalletOperationRequest) : Except Err Int :=
  if req.OperationType = "DEPOSIT" then
    .ok (goAdd wallet.Balance req.Amount)
  else if req.OperationType = "WITHDRAW" then
    if wallet.Balance < req.Amount then .error .InsufficientFundsError
    else .ok (goSub wallet.Balance req.Amount)
  else .error (.msg "database.ProcessOperation: invalid operation type")

/-- The record `models.Operation{...}` built on lines 122 to 128. -/
def mkOperation (env : Env) (req : WalletOperationRequest) : Operation :=
  { ID := env.newID, WalletID := req.WalletID, OpType := req.OperationType,
    Amount := req.Amount, Timestamp := env.now }

/-- The method `Storage.ProcessOperation`.

The deferred function rolls the transaction back when the local variable `err` is not nil
at the moment of return.  `err` is assigned by `BeginTx`, `GetWallet`, `CreateWallet`, the
two `tx.ExecContext` calls and `tx.Commit`; the two `return` statements inside the `switch`
return a fresh error value and leave `err` as it was (nil).

`GetWallet` and `CreateWallet` run on the pool handle, outside the transaction.  The
`UPDATE` and the `INSERT INTO operations` run on `tx` and reach the committed contents
together, when `Commit` succeeds; a failed `Commit` ends the transaction without them.
The `UPDATE` fails when the driver fails it or when the table refuses the new balance. -/
def ProcessOperation (env : Env) (db : DB) (req : WalletOperationRequest) : Outcome :=
  match env.beginErr with
  | some m => { err := some (.wrap "database.ProcessOperation" (.msg m)), db := db, tx := none }
  | none =>
    match findOrCreateWallet env db req with
    | (.error e, db1) => { err := some e, db := db1, tx := some .rolledBack }
    | (.ok wallet, db1) =>
      match newBalance wallet req with
      | .error e => { err := some e, db := db1, tx := some .active }
      | .ok nb =>
        match env.updateErr with
        | some m =>
          { err := some (.wrap "database.ProcessOperation: update wallet error" (.msg m)),
            db := db1, tx := some .rolledBack }
        | none =>
          match updateBalance db1 nb req.WalletID with
          | none =>
            { err := some (.wrap "database.ProcessOperation: update wallet error" balanceRefused),
              db := db1, tx := some .rolledBack }
          | some updated =>
            match env.insertErr with
            | some m =>
              { err := some (.wrap "database.ProcessOperation: insert operation error" (.msg m)),
                db := db1, tx := some .rolledBack }
            | none =>
              match env.commitErr with
              | some m => { err := some (.msg m), db := db1, tx := some .rolledBack }
              | none =>
                { err := none,
                  db := insertOperation updated (mkOperation env req),
                  tx := some .committed }

/-- The method `Storage.GetWalletBalance`. -/
def GetWalletBalance (env : Env) (db : DB) (walletID : String) :
    Except Err WalletBalanceResponse :=
  match GetWallet env db walletID with
  | .error e =>
    if e.isErrNoRows then
      .error (.wrap ("database.GetWalletBalance: wallet with id " ++ walletID ++ " not found") e)
    else .error (.wrap "database.GetWalletBalance" e)
  | .ok wallet => .ok { WalletID := wallet.WalletID, Balance := wallet.Balance }

/-- The function `validateRequest` of `internal/handlers/operation.go`; `uuidParses` stands
for `uuid.Parse` (of `github.com/google/uuid`) returning no error. -/
def validateRequest (uuidParses : String → Bool) (req : WalletOperationRequest) : Option Err :=
  if req.WalletID = "" then some (.msg "empty wallet id")
  else if !uuidParses req.WalletID then some (.msg "invalid wallet id format")
  else if !(req.OperationType = "DEPOSIT" || req.OperationType = "WITHDRAW") then
    some (.msg "operationType must be DEPOSIT or WITHDRAW")
  else if req.Amount ≤ 0 then some (.msg "amount must be a positive integer")
  else none

/-! ## Reading the tables -/

/-- Stored balance of a wallet, `0` when it has no row. -/
def balanceOf (db : DB) (walletID : String) : Int :=
  match selectWallet db walletID with
  | some w => w.Balance
  | none => 0

/-- Sum of the amounts of the ledger entries of one wallet and one kind. -/
def ledgerSum (ops : List Operation) (walletID kind : String) : Int :=
  ((ops.filter (fun o => o.WalletID == walletID && o.OpType == kind)).map (fun o => o.Amount)).sum

/-- Deposits minus withdrawals of one wallet, over the whole ledger. -/
def ledgerBalance (ops : List Operation) (walletID : String) : Int :=
  ledgerSum ops walletID "DEPOSIT" - ledgerSum ops walletID "WITHDRAW"

/-- Apply a sequence of calls one after another, each with its own environment. -/
def applyAll (db : DB) (calls : List (Env × WalletOperationRequest)) : DB :=
  calls.foldl (fun d c => (ProcessOperation c.1 d c.2).db) db

/-- Every wallet row agrees with the ledger and is not negative. -/
def ledgerInvariant (db : DB) : Prop :=
  ∀ r ∈ db.wallets, r.Balance = ledgerBalance db.operations r.WalletID ∧ 0 ≤ r.Balance

/-- The wallet `ProcessOperation` works with when neither the `SELECT` nor the `INSERT INTO
wallets` fails: the stored row, or a fresh one with balance `0`. -/
def currentWallet (db : DB) (walletID : String) : Wallets :=
  match selectWallet db walletID with
  | some w => w
  | none => { WalletID := walletID, Balance := 0 }

/-- Committed contents once the wallet row is known to exist: a missing row is inserted. -/
def withWallet (db : DB) (walletID : String) : DB :=
  match selectWallet db walletID with
  | some _ => db
  | none => insertWallet db walletID

/-- The invariant carried along a run: every wallet row agrees with the ledger and lies
between `0` and `maxInt`, and every ledger entry belongs to a wallet that has a row. -/
def storeInvariant (db : DB) : Prop :=
  (∀ r ∈ db.wallets,
      r.Balance = ledgerBalance db.operations r.WalletID ∧ 0 ≤ r.Balance ∧ r.Balance ≤ maxInt) ∧
    ∀ o ∈ db.operations, ∃ r ∈ db.wallets, r.WalletID = o.WalletID

/-! ## Overlapping calls

To follow two calls of `ProcessOperation` that overlap in time, a call is cut at its
database calls: each step below is one statement of the call together with the local
computation that precedes the next one.  The statements on `s.db` act on the committed
tables at the moment they run; the two statements on `tx` are buffered and applied by
`Commit`.  An `UPDATE` that the database would keep waiting for a row lock held by the
other call appears here as a turn taken early: its effect is buffered either way and
reaches the tables at its own `Commit`. -/

/-- Where a call of `ProcessOperation` stands. -/
inductive Stage where
  | start : Stage
  | begun : Stage
  | creating : Stage
  | deciding : Wallets → Stage
  | inserting : Int → Stage
  | committing : Int → Stage
  | returned : Option Err → Option TxStatus → Stage
  deriving DecidableEq, Repr

/-- A call of `ProcessOperation` in progress. -/
structure Call where
  env : Env
  req : WalletOperationRequest
  stage : Stage
  deriving DecidableEq, Repr

/-- A call that has not yet run `BeginTx`. -/
def Call.new (env : Env) (req : WalletOperationRequest) : Call :=
  { env := env, req := req, stage := .start }

/-- The call moves on to another stage. -/
def Call.goto (c : Call) (st : Stage) : Call :=
  { env := c.env, req := c.req, stage := st }

/-- One step of a call: `BeginTx`; `GetWallet`; `CreateWallet`; the `switch` and the
`UPDATE`; the `INSERT INTO operations`; `Commit`.  A call that has returned stays put. -/
def Call.step (db : DB) (c : Call) : DB × Call :=
  match c.stage with
  | .start =>
    match c.env.beginErr with
    | some m =>
      (db, c.goto (.returned (some (.wrap "database.ProcessOperation" (.msg m))) none))
    | none => (db, c.goto .begun)
  | .begun =>
    match GetWallet c.env db c.req.WalletID with
    | .ok w => (db, c.goto (.deciding w))
    | .error e =>
      if e.isErrNoRows then (db, c.goto .creating)
      else
        (db, c.goto (.returned
          (some (.wrap "database.ProcessOperation: get wallet error" e)) (some .rolledBack)))
  | .creating =>
    match CreateWallet c.env db c.req.WalletID with
    | (some ce, db1) =>
      (db1, c.goto (.returned
        (some (.wrap "database.ProcessOperation: create wallet error" ce)) (some .rolledBack)))
    | (none, db1) => (db1, c.goto (.deciding { WalletID := c.req.WalletID, Balance := 0 }))
  | .deciding wallet =>
    match newBalance wallet c.req with
    | .error e => (db, c.goto (.returned (some e) (some .active)))
    | .ok nb =>
      match c.env.updateErr with
      | some m =>
        (db, c.goto (.returned
          (some (.wrap "database.ProcessOperation: update wallet error" (.msg m)))
          (some .rolledBack)))
      | none =>
        match updateBalance db nb c.req.WalletID with
        | none =>
          (db, c.goto (.returned
            (some (.wrap "database.ProcessOperation: update wallet error" balanceRefused))
            (some .rolledBack)))
        | some _ => (db, c.goto (.inserting nb))
  | .inserting nb =>
    match c.env.insertErr with
    | some m =>
      (db, c.goto (.returned
        (some (.wrap "database.ProcessOperation: insert operation error" (.msg m)))
        (some .rolledBack)))
    | none => (db, c.goto (.committing nb))
  | .committing nb =>
    match c.env.commitErr with
    | some m => (db, c.goto (.returned (some (.msg m)) (some .rolledBack)))
    | none =>
      (insertOperation (setBalance db nb c.req.WalletID) (mkOperation c.env c.req),
        c.goto (.returned none (some .committed)))
  | .returned _ _ => (db, c)

/-- Run one call alone for a number of steps. -/
def Call.run (db : DB) (c : Call) : Nat → DB × Call
  | 0 => (db, c)
  | n + 1 => Call.run (Call.step db c).1 (Call.step db c).2 n

/-- Run two calls against the same database; the schedule says, step by step, which of
the two moves (`false` the first, `true` the second). -/
def interleave (db : DB) (a b : Call) : List Bool → DB × Call × Call
  | [] => (db, a, b)
  | false :: rest => interleave (Call.step db a).1 (Call.step db a).2 b rest
  | true :: rest => interleave (Call.step db b).1 a (Call.step db b).2 rest

/-- All schedules of `n` turns of which `k` are turns of the first call. -/
def schedules : Nat → Nat → List (List Bool)
  | 0, 0 => [[]]
  | 0, _ + 1 => []
  | n + 1, 0 => (schedules n 0).map (fun s => true :: s)
  | n + 1, k + 1 =>
    (schedules n k).map (fun s => false :: s) ++ (schedules n (k + 1)).map (fun s => true :: s)

/-- Position in the schedule of the `k`-th turn (counted from 1) of the call `who`. -/
def turnIndex (who : Bool) : Nat → List Bool → Nat
  | _, [] => 0
  | k, t :: rest =>
    if t = who then (if k ≤ 1 then 0 else turnIndex who (k - 1) rest + 1)
    else turnIndex who k rest + 1

/-- Whether the call `who` runs `GetWallet`, its second step, after the other call has run
`Commit`, its fifth step. -/
def readsAfterCommit (who : Bool) (sched : List Bool) : Bool :=
  decide (turnIndex (!who) 5 sched < turnIndex who 2 sched)

/-- How a `WITHDRAW 80` on a wallet that held 100 ends: refused with
`InsufficientFundsError` when it read the balance after the other withdrawal was committed,
committed otherwise. -/
def withdrawalEnd (readLate : Bool) : Stage :=
  if readLate then .returned (some .InsufficientFundsError) (some .active)
  else .returned none (some .committed)

/-- A stage with the wallet id of the row the call has read replaced by `"w"`: what the
stage is when the same calls run on the store that holds only the wallet `"w"`. -/
def Stage.onCanonical : Stage → Stage
  | .start => .start
  | .begun => .begun
  | .creating => .creating
  | .deciding r => .deciding { WalletID := "w", Balance := r.Balance }
  | .inserting nb => .inserting nb
  | .committing nb => .committing nb
  | .returned e t => .returned e t

/-! ## HTTP handlers

The handlers of `internal/handlers` are modelled from the decoded request on (`BindJSON`
has succeeded).  A handler run ends with the document written by `c.JSON`, or with a
run-time panic.  The storage behind the interface is a state-passing implementation, so
that both the real `Storage` and the mocks of the tests fit.

`HandleWalletOperation` starts two goroutines: the first calls the storage and sends one
message, on `errChan` or on `balanceChan` (both buffered, capacity 1); the second waits
for the first and then closes both channels.  The handler's `select` takes the message, or,
when it runs after a channel has been closed, may receive that channel's zero value: a
closed channel can always be received from, and among the cases that can proceed `select`
picks one at random. -/

/-- The method `Error()` of an error value; `fmt.Errorf("p: %w", e)` prints `p: ` and then
the wrapped error. -/
def Err.Error : Err → String
  | .ErrNoRows => "sql: no rows in result set"
  | .InsufficientFundsError => "insufficient funds"
  | .msg s => s
  | .wrap p e => p ++ ": " ++ e.Error

/-- The JSON document of a response: `requests.Error(err)`, the map built by
`HandleWalletOperation` (`walletId`, `operationType`, `balance`), or the
`WalletBalanceResponse` passed to `requests.WalletOperationResponseOK`. -/
inductive ResponseBody where
  | error : String → ResponseBody
  | operation : String → String → Int → ResponseBody
  | balance : WalletBalanceResponse → ResponseBody
  deriving DecidableEq, Repr

/-- How a handler run ends: `c.JSON(status, body)`, or a nil dereference (`balance.Balance`
on a nil `balance`, `err.Error()` on a nil `err`). -/
inductive Reply where
  | json : Nat → ResponseBody → Reply
  | nilDereference : Reply
  deriving DecidableEq, Repr

/-- The function `logError`: answers `status` with the message followed by the error. -/
def logError (err : Err) (status : Nat) (message : String) : Reply :=
  .json status (.error (message ++ ": " ++ err.Error))

/-- A call made on the storage interface. -/
inductive InterfaceCall where
  | ProcessOperation : WalletOperationRequest → InterfaceCall
  | GetWalletBalance : String → InterfaceCall
  deriving DecidableEq, Repr

/-- The interface `WalletOperationHandler`, over an implementation with state `σ`.  A
`GetWalletBalance` that returns a nil response together with a nil error is not modelled. -/
structure WalletOperationHandler (σ : Type) where
  ProcessOperation : σ → WalletOperationRequest → Option Err × σ
  GetWalletBalance : σ → String → Except Err WalletBalanceResponse

/-- The interface `WalletBalanceGetter`. -/
structure WalletBalanceGetter (σ : Type) where
  GetWalletBalance : σ → String → Except Err WalletBalanceResponse

/-- The type `Storage` as an implementation of `WalletOperationHandler`: the state is the
committed database; `envOp` and `envRead` are the environments of the two calls. -/
def Storage (envOp envRead : Env) : WalletOperationHandler DB :=
  { ProcessOperation := fun db req =>
      ((ProcessOperation envOp db req).err, (ProcessOperation envOp db req).db)
    GetWalletBalance := fun db walletID => GetWalletBalance envRead db walletID }

/-- The type `mockWalletOperationHandler` of the tests, with the results its two functions
return. -/
def mockWalletOperationHandler (processResult : Option Err)
    (balanceResult : Except Err WalletBalanceResponse) : WalletOperationHandler Unit :=
  { ProcessOperation := fun _ _ => (processResult, ())
    GetWalletBalance := fun _ _ => balanceResult }

/-- Where the second goroutine of `HandleWalletOperation` stands when the `select` of the
handler receives: it has closed nothing yet, it has run `close(errChan)`, or it has also
run `close(balanceChan)`. -/
inductive SelectTiming where
  | beforeClose : SelectTiming
  | errChanClosed : SelectTiming
  | bothClosed : SelectTiming
  deriving DecidableEq, Repr

/-- What the scheduler decides for one run of `HandleWalletOperation`: when the `select`
receives, and which case it takes when both can proceed. -/
structure Schedule where
  timing : SelectTiming
  pickBalance : Bool
  deriving DecidableEq, Repr

/-- The first goroutine of `HandleWalletOperation`: the message it sends (`.error` on
`errChan`, `.ok` on `balanceChan`), the calls it makes and the state it leaves. -/
def operationWorker {σ : Type} (handler : WalletOperationHandler σ) (s : σ)
    (req : WalletOperationRequest) :
    Except Err WalletBalanceResponse × List InterfaceCall × σ :=
  match handler.ProcessOperation s req with
  | (some err, s1) => (.error err, [.ProcessOperation req], s1)
  | (none, s1) =>
    match handler.GetWalletBalance s1 req.WalletID with
    | .error err =>
      (.error err, [.ProcessOperation req, .GetWalletBalance req.WalletID], s1)
    | .ok walletBalance =>
      (.ok walletBalance, [.ProcessOperation req, .GetWalletBalance req.WalletID], s1)

/-- What the `select` of `HandleWalletOperation` receives: a value from `balanceChan` or
from `errChan`, `none` being the zero value of a closed channel. -/
inductive Received where
  | balance : Option WalletBalanceResponse → Received
  | err : Option Err → Received
  deriving DecidableEq, Repr

/-- The `select` statement of `HandleWalletOperation`, given the message of the first
goroutine.  `balanceChan` can proceed when it holds the message or is closed, `errChan`
likewise. -/
def selectReceive (sched : Schedule) (message : Except Err WalletBalanceResponse) : Received :=
  match sched.timing, message with
  | .beforeClose, .ok b => .balance (some b)
  | .beforeClose, .error e => .err (some e)
  | .errChanClosed, .ok b => if sched.pickBalance then .balance (some b) else .err none
  | .errChanClosed, .error e => .err (some e)
  | .bothClosed, .ok b => if sched.pickBalance then .balance (some b) else .err none
  | .bothClosed, .error e => if sched.pickBalance then .balance none else .err (some e)

/-- A run of a handler: the reply, the calls made on the storage, the state left. -/
structure HandlerRun (σ : Type) where
  reply : Reply
  calls : List InterfaceCall
  state : σ

/-- The handler returned by `HandleWalletOperation`, from `validateRequest` on. -/
def HandleWalletOperation {σ : Type} (uuidParses : String → Bool)
    (handler : WalletOperationHandler σ) (sched : Schedule) (s : σ)
    (req : WalletOperationRequest) : HandlerRun σ :=
  match validateRequest uuidParses req with
  | some validationError =>
    { reply := logError validationError 400 "bad request data", calls := [], state := s }
  | none =>
    { reply :=
        match selectReceive sched (operationWorker handler s req).1 with
        | .balance (some balance) =>
          .json 200 (.operation req.WalletID req.OperationType balance.Balance)
        | .balance none => .nilDereference
        | .err (some err) =>
          if err.isErrNoRows then logError err 404 "wallet not found"
          else if err.asInsufficientFunds then logError err 403 "balance cant become negative"
          else logError err 500 "internal server error"
        | .err none => .nilDereference
      calls := (operationWorker handler s req).2.1
      state := (operationWorker handler s req).2.2 }

/-- The handler returned by `HandleGetWalletBalance`.  Its goroutine sends one message and
no channel is closed, so the `select` receives that message. -/
def HandleGetWalletBalance {σ : Type} (uuidParses : String → Bool)
    (balanceGetter : WalletBalanceGetter σ) (s : σ) (walletID : String) :
    Reply × List InterfaceCall :=
  if !uuidParses walletID then
    (logError (.msg "invalid wallet id format") 400 "invalid walletId format", [])
  else
    match balanceGetter.GetWalletBalance s walletID with
    | .ok balance => (.json 200 (.balance balance), [.GetWalletBalance walletID])
    | .error err =>
      if err.isErrNoRows then
        (logError (.msg "no such a wallet") 404 "wallet not found", [.GetWalletBalance walletID])
      else (logError err 500 "internal server error", [.GetWalletBalance walletID])

/-! ## Auxiliary facts -/

theorem wrapInt_of_fits (x : Int) (h1 : minInt ≤ x) (h2 : x ≤ maxInt) : wrapInt x = x := by
  unfold minInt at h1
  unfold maxInt at h2
  unfold wrapInt
  omega

theorem selectWallet_eq_none (db : DB) (w : String) :
    selectWallet db w = none ↔ ∀ r ∈ db.wallets, r.WalletID ≠ w := by
  simp [selectWallet, List.find?_eq_none]

theorem selectWallet_some_mem (db : DB) (w : String) (r : Wallets)
    (h : selectWallet db w = some r) : r ∈ db.wallets ∧ r.WalletID = w := by
  unfold selectWallet at h
  have h1 := List.mem_of_find?_eq_some h
  have h2 := List.find?_some h
  exact ⟨h1, by simpa using h2⟩

theorem setBalance_row_id (nb : Int) (w : String) (r : Wallets) :
    (if r.WalletID == w then { r with Balance := nb } else r).WalletID = r.WalletID := by
  split <;> rfl

theorem selectWallet_setBalance_same (db : DB) (nb : Int) (w : String) :
    selectWallet (setBalance db nb w) w =
      (selectWallet db w).map (fun r => { r with Balance := nb }) := by
  unfold selectWallet setBalance
  simp only
  rw [List.find?_map]
  have hp : ((fun r : Wallets => r.WalletID == w) ∘
      fun r => if r.WalletID == w then { r with Balance := nb } else r) =
      fun r : Wallets => r.WalletID == w := by
    funext r
    simp only [Function.comp, setBalance_row_id]
  rw [hp]
  cases h : List.find? (fun r : Wallets => r.WalletID == w) db.wallets with
  | none => rfl
  | some r =>
    have hr := List.find?_some h
    simp only [Option.map_some']
    rw [if_pos hr]

theorem selectWallet_setBalance_other (db : DB) (nb : Int) (w v : String) (hne : v ≠ w) :
    selectWallet (setBalance db nb w) v = selectWallet db v := by
  unfold selectWallet setBalance
  simp only
  rw [List.find?_map]
  have hp : ((fun r : Wallets => r.WalletID == v) ∘
      fun r => if r.WalletID == w then { r with Balance := nb } else r) =
      fun r : Wallets => r.WalletID == v := by
    funext r
    simp only [Function.comp, setBalance_row_id]
  rw [hp]
  cases h : List.find? (fun r : Wallets => r.WalletID == v) db.wallets with
  | none => rfl
  | some r =>
    have hr := List.find?_some h
    have hr1 : r.WalletID = v := by simpa using hr
    have hr2 : ¬ (r.WalletID == w) = true := by
      simp only [beq_iff_eq]
      rw [hr1]
      exact hne
    simp only [Option.map_some']
    rw [if_neg hr2]

theorem selectWallet_insertOperation (db : DB) (o : Operation) (v : String) :
    selectWallet (insertOperation db o) v = selectWallet db v := rfl

theorem selectWallet_insertWallet_new (db : DB) (w : String) (h : selectWallet db w = none) :
    selectWallet (insertWallet db w) w = some { WalletID := w, Balance := walletsBalanceDefault } := by
  unfold selectWallet at h
  simp [selectWallet, insertWallet, List.find?_append, h]

theorem selectWallet_insertWallet_other (db : DB) (w v : String) (hne : v ≠ w) :
    selectWallet (insertWallet db w) v = selectWallet db v := by
  simp only [selectWallet, insertWallet, List.find?_append]
  cases List.find? (fun r => r.WalletID == v) db.wallets with
  | some r => rfl
  | none =>
    have hb : (w == v) = false := by simpa using hne.symm
    simp [List.find?, hb]

theorem currentWallet_balance (db : DB) (w : String) :
    (currentWallet db w).Balance = balanceOf db w := by
  unfold currentWallet balanceOf
  cases selectWallet db w <;> rfl

theorem selectWallet_withWallet (db : DB) (w : String) :
    selectWallet (withWallet db w) w = some (currentWallet db w) := by
  unfold withWallet currentWallet
  cases h : selectWallet db w with
  | some r => simpa using h
  | none => simpa [walletsBalanceDefault] using selectWallet_insertWallet_new db w h

theorem selectWallet_withWallet_other (db : DB) (w v : String) (hne : v ≠ w) :
    selectWallet (withWallet db w) v = selectWallet db v := by
  unfold withWallet
  cases selectWallet db w with
  | some r => rfl
  | none => exact selectWallet_insertWallet_other db w v hne

theorem withWallet_operations (db : DB) (w : String) :
    (withWallet db w).operations = db.operations := by
  unfold withWallet
  cases selectWallet db w <;> rfl

theorem findOrCreateWallet_eq (env : Env) (db : DB) (req : WalletOperationRequest)
    (hs : env.selectErr = none) (hc : env.createErr = none) :
    findOrCreateWallet env db req =
      (.ok (currentWallet db req.WalletID), withWallet db req.WalletID) := by
  unfold findOrCreateWallet GetWallet CreateWallet currentWallet withWallet
  rw [hs, hc]
  cases selectWallet db req.WalletID <;> simp [Err.isErrNoRows]

theorem findOrCreateWallet_found (env : Env) (db : DB) (req : WalletOperationRequest)
    (r : Wallets) (hs : env.selectErr = none) (hr : selectWallet db req.WalletID = some r) :
    findOrCreateWallet env db req = (.ok r, db) := by
  unfold findOrCreateWallet GetWallet
  rw [hs, hr]

/-- Whatever the failures, the lookup stage leaves the tables as they were or adds the
missing wallet row. -/
theorem findOrCreateWallet_db (env : Env) (db : DB) (req : WalletOperationRequest) :
    (findOrCreateWallet env db req).2 = db ∨
      (selectWallet db req.WalletID = none ∧
        (findOrCreateWallet env db req).2 = insertWallet db req.WalletID) := by
  unfold findOrCreateWallet GetWallet CreateWallet
  cases env.selectErr with
  | some m => left; simp [Err.isErrNoRows]
  | none =>
    cases h : selectWallet db req.WalletID with
    | some r => left; rfl
    | none =>
      cases env.createErr with
      | some m => left; simp [Err.isErrNoRows]
      | none => right; simp [Err.isErrNoRows]

/-- The outcome of `ProcessOperation` when no database call is failed by the driver. -/
theorem ProcessOperation_ok (id : String) (now : Nat) (db : DB) (req : WalletOperationRequest) :
    ProcessOperation (Env.ok id now) db req =
      match newBalance (currentWallet db req.WalletID) req with
      | .error e => { err := some e, db := withWallet db req.WalletID, tx := some .active }
      | .ok nb =>
        if balanceColumnAccepts nb then
          { err := none,
            db := insertOperation (setBalance (withWallet db req.WalletID) nb req.WalletID)
              (mkOperation (Env.ok id now) req),
            tx := some .committed }
        else
          { err := some (.wrap "database.ProcessOperation: update wallet error" balanceRefused),
            db := withWallet db req.WalletID, tx := some .rolledBack } := by
  unfold ProcessOperation updateBalance
  rw [findOrCreateWallet_eq _ _ _ rfl rfl]
  simp only [Env.ok]
  cases newBalance (currentWallet db req.WalletID) req with
  | error e => rfl
  | ok nb =>
    simp only
    cases balanceColumnAccepts nb <;> rfl

theorem balanceOf_after_write (db : DB) (nb : Int) (w : String) (o : Operation) :
    balanceOf (insertOperation (setBalance (withWallet db w) nb w) o) w = nb := by
  unfold balanceOf
  rw [selectWallet_insertOperation, selectWallet_setBalance_same, selectWallet_withWallet]
  rfl

theorem balanceOf_after_write_other (db : DB) (nb : Int) (w v : String) (o : Operation)
    (hne : v ≠ w) :
    balanceOf (insertOperation (setBalance (withWallet db w) nb w) o) v = balanceOf db v := by
  unfold balanceOf
  rw [selectWallet_insertOperation, selectWallet_setBalance_other _ _ _ _ hne,
    selectWallet_withWallet_other _ _ _ hne]

theorem balanceOf_insertWallet (db : DB) (w v : String) (h : selectWallet db w = none) :
    balanceOf (insertWallet db w) v = balanceOf db v := by
  unfold balanceOf
  by_cases hv : v = w
  · subst hv
    rw [selectWallet_insertWallet_new db v h, h]
    rfl
  · rw [selectWallet_insertWallet_other db w v hv]

theorem findOrCreateWallet_operations (env : Env) (db : DB) (req : WalletOperationRequest) :
    (findOrCreateWallet env db req).2.operations = db.operations := by
  rcases findOrCreateWallet_db env db req with h | ⟨_, h⟩ <;> rw [h]
  rfl

theorem findOrCreateWallet_balanceOf (env : Env) (db : DB) (req : WalletOperationRequest)
    (v : String) : balanceOf (findOrCreateWallet env db req).2 v = balanceOf db v := by
  rcases findOrCreateWallet_db env db req with h | ⟨h0, h⟩ <;> rw [h]
  exact balanceOf_insertWallet db req.WalletID v h0

/-- When the lookup stage yields a wallet, it is the stored row (or the fresh one) and the
row exists afterwards. -/
theorem findOrCreateWallet_ok (env : Env) (db : DB) (req : WalletOperationRequest)
    (wallet : Wallets) (h : (findOrCreateWallet env db req).1 = .ok wallet) :
    wallet = currentWallet db req.WalletID ∧
      (findOrCreateWallet env db req).2 = withWallet db req.WalletID := by
  unfold findOrCreateWallet GetWallet CreateWallet at h ⊢
  unfold currentWallet withWallet
  cases hs : env.selectErr with
  | some m => simp [hs, Err.isErrNoRows] at h
  | none =>
    cases hr : selectWallet db req.WalletID with
    | some r =>
      simp only [hs, hr] at h
      simp only [Except.ok.injEq] at h
      simp [h]
    | none =>
      cases hc : env.createErr with
      | some m => simp [hs, hr, hc, Err.isErrNoRows] at h
      | none =>
        simp only [hs, hr, hc, Err.isErrNoRows] at h
        simp only [if_true, Except.ok.injEq] at h
        simp [h, Err.isErrNoRows]

/-! ## Withdrawals and deposits -/

/-- A deposit of a positive 64-bit amount on a 64-bit balance whose new balance the column
accepts has not overflowed. -/
theorem goAdd_of_accepted (b a : Int) (hlo : minInt ≤ b) (hhi : b ≤ maxInt) (ha : 0 < a)
    (hamax : a ≤ maxInt) (hacc : balanceColumnAccepts (goAdd b a) = true) :
    goAdd b a = b + a ∧ b + a ≤ maxInt := by
  unfold balanceColumnAccepts goAdd wrapInt at hacc
  unfold goAdd wrapInt
  unfold minInt at hlo
  unfold maxInt at hhi hamax ⊢
  simp only [decide_eq_true_eq] at hacc
  omega

/-- A deposit that overflows yields a negative new balance, which the column refuses. -/
theorem goAdd_refused_of_overflow (b a : Int) (hb0 : 0 ≤ b) (hhi : b ≤ maxInt) (ha : 0 < a)
    (hamax : a ≤ maxInt) (hover : maxInt < b + a) :
    balanceColumnAccepts (goAdd b a) = false := by
  unfold balanceColumnAccepts goAdd wrapInt
  unfold maxInt at hhi hamax hover
  simp only [decide_eq_false_iff_not, not_le]
  omega

/-- C2: for a wallet with stored balance `b` (a 64-bit integer, `0` when the wallet has no
row) and a `WITHDRAW` of a positive amount `a`, `ProcessOperation` without store failures
succeeds exactly when `b ≥ a`; on success the stored balance is `b - a`, and when `b < a`
the returned error is the bare `InsufficientFundsError` value. -/
theorem C2_withdraw_iff_sufficient (id : String) (now : Nat) (db : DB)
    (req : WalletOperationRequest) (hk : req.OperationType = "WITHDRAW")
    (ha : 0 < req.Amount) (hb : balanceOf db req.WalletID ≤ maxInt) :
    ((ProcessOperation (Env.ok id now) db req).err = none ↔
        req.Amount ≤ balanceOf db req.WalletID) ∧
      (req.Amount ≤ balanceOf db req.WalletID →
        balanceOf (ProcessOperation (Env.ok id now) db req).db req.WalletID =
          balanceOf db req.WalletID - req.Amount) ∧
      (balanceOf db req.WalletID < req.Amount →
        (ProcessOperation (Env.ok id now) db req).err = some .InsufficientFundsError) := by
  have hne : req.OperationType ≠ "DEPOSIT" := by rw [hk]; decide
  rw [ProcessOperation_ok]
  unfold newBalance
  rw [if_neg hne, if_pos hk, currentWallet_balance]
  by_cases hlt : balanceOf db req.WalletID < req.Amount
  · rw [if_pos hlt]
    refine ⟨?_, ?_, ?_⟩
    · constructor
      · intro h
        simp at h
      · intro h
        omega
    · intro h
      omega
    · intro _
      rfl
  · rw [if_neg hlt]
    have hw : goSub (balanceOf db req.WalletID) req.Amount =
        balanceOf db req.WalletID - req.Amount := by
      unfold goSub
      apply wrapInt_of_fits
      · unfold minInt
        omega
      · omega
    have hacc : balanceColumnAccepts (balanceOf db req.WalletID - req.Amount) = true := by
      unfold balanceColumnAccepts
      simp only [decide_eq_true_eq]
      omega
    simp only [hw, hacc, if_true]
    refine ⟨?_, ?_, ?_⟩
    · simp only [true_iff]
      omega
    · intro _
      rw [balanceOf_after_write]
    · intro h
      exact absurd h hlt

/-- Witness for C2: withdrawing 30 from a stored balance of 100 succeeds and leaves 70;
withdrawing 130 would be refused. -/
theorem C2_withdraw_iff_sufficient_witness :
    ((ProcessOperation (Env.ok "op-1" 0) ⟨[⟨"w", 100⟩], []⟩ ⟨"w", "WITHDRAW", 30⟩).err = none ↔
        (30 : Int) ≤ balanceOf ⟨[⟨"w", 100⟩], []⟩ "w") ∧
      ((30 : Int) ≤ balanceOf ⟨[⟨"w", 100⟩], []⟩ "w" →
        balanceOf (ProcessOperation (Env.ok "op-1" 0) ⟨[⟨"w", 100⟩], []⟩
          ⟨"w", "WITHDRAW", 30⟩).db "w" = balanceOf ⟨[⟨"w", 100⟩], []⟩ "w" - 30) ∧
      (balanceOf ⟨[⟨"w", 100⟩], []⟩ "w" < (30 : Int) →
        (ProcessOperation (Env.ok "op-1" 0) ⟨[⟨"w", 100⟩], []⟩ ⟨"w", "WITHDRAW", 30⟩).err =
          some .InsufficientFundsError) :=
  C2_withdraw_iff_sufficient "op-1" 0 ⟨[⟨"w", 100⟩], []⟩ ⟨"w", "WITHDRAW", 30⟩ rfl
    (by decide) (by decide)

/-- C3: for a wallet with stored balance `b` (a 64-bit integer, `0` when the wallet has no
row) and a `DEPOSIT` of a positive 64-bit amount `a`, `ProcessOperation` without store
failures (no call failed by the driver, the `UPDATE` not refused by the table) succeeds and
the stored balance becomes `b + a`; a wallet without a row ends with a row of balance `a`. -/
theorem C3_deposit_adds_amount (id : String) (now : Nat) (db : DB)
    (req : WalletOperationRequest) (hk : req.OperationType = "DEPOSIT")
    (ha : 0 < req.Amount) (hamax : req.Amount ≤ maxInt)
    (hlo : minInt ≤ balanceOf db req.WalletID) (hhi : balanceOf db req.WalletID ≤ maxInt)
    (hacc : (updateBalance (withWallet db req.WalletID)
      (goAdd (balanceOf db req.WalletID) req.Amount) req.WalletID).isSome = true) :
    (ProcessOperation (Env.ok id now) db req).err = none ∧
      balanceOf (ProcessOperation (Env.ok id now) db req).db req.WalletID =
        balanceOf db req.WalletID + req.Amount ∧
      (selectWallet db req.WalletID = none →
        selectWallet (ProcessOperation (Env.ok id now) db req).db req.WalletID =
          some { WalletID := req.WalletID, Balance := req.Amount }) := by
  have hacc1 : balanceColumnAccepts (goAdd (balanceOf db req.WalletID) req.Amount) = true := by
    unfold updateBalance at hacc
    cases h : balanceColumnAccepts (goAdd (balanceOf db req.WalletID) req.Amount) with
    | true => rfl
    | false => simp [h] at hacc
  have hw := (goAdd_of_accepted _ _ hlo hhi ha hamax hacc1).1
  rw [ProcessOperation_ok]
  unfold newBalance
  rw [if_pos hk, currentWallet_balance]
  simp only [hacc1, if_true]
  rw [hw]
  refine ⟨trivial, ?_, ?_⟩
  · rw [balanceOf_after_write]
  · intro habs
    rw [selectWallet_insertOperation, selectWallet_setBalance_same, selectWallet_withWallet]
    have hb : balanceOf db req.WalletID = 0 := by
      unfold balanceOf
      rw [habs]
    have hc : currentWallet db req.WalletID = { WalletID := req.WalletID, Balance := 0 } := by
      unfold currentWallet
      rw [habs]
    rw [hb, hc]
    simp

/-- Witness for C3: `DEPOSIT 500` on a wallet id that is not in the store succeeds and
leaves that wallet with balance 500. -/
theorem C3_deposit_adds_amount_witness :
    (ProcessOperation (Env.ok "op-1" 0) DB.empty ⟨"w", "DEPOSIT", 500⟩).err = none ∧
      balanceOf (ProcessOperation (Env.ok "op-1" 0) DB.empty ⟨"w", "DEPOSIT", 500⟩).db "w" =
        balanceOf DB.empty "w" + 500 ∧
      (selectWallet DB.empty "w" = none →
        selectWallet (ProcessOperation (Env.ok "op-1" 0) DB.empty ⟨"w", "DEPOSIT", 500⟩).db "w" =
          some { WalletID := "w", Balance := 500 }) :=
  C3_deposit_adds_amount "op-1" 0 DB.empty ⟨"w", "DEPOSIT", 500⟩ rfl (by decide) (by decide)
    (by decide) (by decide) (by decide)

/-- C4: a `WITHDRAW` of more than the stored balance of an existing wallet leaves the
committed tables (every wallet row and the list of ledger entries) exactly as they were,
and, `BeginTx` and the `SELECT` not failing, returns `InsufficientFundsError`. -/
theorem C4_rejected_withdraw_changes_nothing (env : Env) (db : DB)
    (req : WalletOperationRequest) (r : Wallets)
    (hr : selectWallet db req.WalletID = some r)
    (hk : req.OperationType = "WITHDRAW") (hlt : r.Balance < req.Amount) :
    (ProcessOperation env db req).db = db ∧
      (env.beginErr = none → env.selectErr = none →
        (ProcessOperation env db req).err = some .InsufficientFundsError) := by
  have hne : req.OperationType ≠ "DEPOSIT" := by rw [hk]; decide
  constructor
  · unfold ProcessOperation
    cases env.beginErr with
    | some m => rfl
    | none =>
      cases hs : env.selectErr with
      | some m => simp [findOrCreateWallet, GetWallet, hs, Err.isErrNoRows]
      | none =>
        rw [findOrCreateWallet_found env db req r hs hr]
        simp [newBalance, hne, hk, hlt]
  · intro hb hs
    unfold ProcessOperation
    rw [hb, findOrCreateWallet_found env db req r hs hr]
    simp [newBalance, hne, hk, hlt]

/-- Witness for C4: `WITHDRAW 150` from a stored balance of 100. -/
theorem C4_rejected_withdraw_changes_nothing_witness :
    (ProcessOperation (Env.ok "op-1" 0) ⟨[⟨"w", 100⟩], []⟩ ⟨"w", "WITHDRAW", 150⟩).db =
        ⟨[⟨"w", 100⟩], []⟩ ∧
      (ProcessOperation (Env.ok "op-1" 0) ⟨[⟨"w", 100⟩], []⟩ ⟨"w", "WITHDRAW", 150⟩).err =
        some .InsufficientFundsError :=
  ⟨(C4_rejected_withdraw_changes_nothing (Env.ok "op-1" 0) ⟨[⟨"w", 100⟩], []⟩
      ⟨"w", "WITHDRAW", 150⟩ ⟨"w", 100⟩ (by decide) rfl (by decide)).1,
    (C4_rejected_withdraw_changes_nothing (Env.ok "op-1" 0) ⟨[⟨"w", 100⟩], []⟩
      ⟨"w", "WITHDRAW", 150⟩ ⟨"w", 100⟩ (by decide) rfl (by decide)).2 rfl rfl⟩

/-! ## Ledger entries and atomicity -/

/-- The committed tables after `ProcessOperation`: those left by the lookup stage, or those
with both writes of the transaction. -/
theorem ProcessOperation_db_cases (env : Env) (db : DB) (req : WalletOperationRequest) :
    ((ProcessOperation env db req).err ≠ none ∧
        ((ProcessOperation env db req).db = db ∨
          (ProcessOperation env db req).db = (findOrCreateWallet env db req).2)) ∨
      ((ProcessOperation env db req).err = none ∧
        env.updateErr = none ∧ env.insertErr = none ∧ env.commitErr = none ∧
        ∃ wallet nb, (findOrCreateWallet env db req).1 = .ok wallet ∧
          newBalance wallet req = .ok nb ∧ balanceColumnAccepts nb = true ∧
          (ProcessOperation env db req).db =
            insertOperation (setBalance (findOrCreateWallet env db req).2 nb req.WalletID)
              (mkOperation env req)) := by
  unfold ProcessOperation updateBalance
  cases env.beginErr with
  | some m => left; simp
  | none =>
    rcases hf : findOrCreateWallet env db req with ⟨res, db1⟩
    cases res with
    | error e => left; simp
    | ok wallet =>
      cases hn : newBalance wallet req with
      | error e => left; simp [hn]
      | ok nb =>
        cases hu : env.updateErr with
        | some m => left; simp [hn, hu]
        | none =>
          cases ha : balanceColumnAccepts nb with
          | false => left; simp [hn, hu, ha]
          | true =>
            cases hi : env.insertErr with
            | some m => left; simp [hn, hu, ha, hi]
            | none =>
              cases hc : env.commitErr with
              | some m => left; simp [hn, hu, ha, hi, hc]
              | none => right; simp [hn, hu, ha, hi, hc]

/-- C5: a call of `ProcessOperation` that returns no error has appended exactly one entry
to the ledger, carrying the wallet id, kind and amount of the request, after the entries
that were there, which are unchanged; a call that returns an error leaves the ledger as
it was. -/
theorem C5_one_entry_per_success (env : Env) (db : DB) (req : WalletOperationRequest) :
    ((ProcessOperation env db req).err = none →
        ∃ o : Operation, (ProcessOperation env db req).db.operations = db.operations ++ [o] ∧
          o.WalletID = req.WalletID ∧ o.OpType = req.OperationType ∧ o.Amount = req.Amount) ∧
      ((ProcessOperation env db req).err ≠ none →
        (ProcessOperation env db req).db.operations = db.operations) := by
  have hops := findOrCreateWallet_operations env db req
  rcases ProcessOperation_db_cases env db req with
    ⟨he, hd⟩ | ⟨he, _, _, _, wallet, nb, _, _, _, hd⟩
  · refine ⟨fun h => absurd h he, fun _ => ?_⟩
    rcases hd with hd | hd <;> rw [hd]
    exact hops
  · refine ⟨fun _ => ⟨mkOperation env req, ?_, rfl, rfl, rfl⟩, fun h => absurd he h⟩
    rw [hd]
    simp only [insertOperation, setBalance, hops]

/-- Witness for C5: an accepted deposit appends its entry, a refused withdrawal appends
nothing. -/
theorem C5_one_entry_per_success_witness :
    (ProcessOperation (Env.ok "op-2" 7) ⟨[⟨"w", 100⟩], [⟨"op-1", "w", "DEPOSIT", 100, 3⟩]⟩
        ⟨"w", "DEPOSIT", 5⟩).db.operations =
        [⟨"op-1", "w", "DEPOSIT", 100, 3⟩, ⟨"op-2", "w", "DEPOSIT", 5, 7⟩] ∧
      (ProcessOperation (Env.ok "op-2" 7) ⟨[⟨"w", 100⟩], [⟨"op-1", "w", "DEPOSIT", 100, 3⟩]⟩
        ⟨"w", "WITHDRAW", 500⟩).db.operations = [⟨"op-1", "w", "DEPOSIT", 100, 3⟩] := by
  have h := C5_one_entry_per_success (Env.ok "op-2" 7)
    ⟨[⟨"w", 100⟩], [⟨"op-1", "w", "DEPOSIT", 100, 3⟩]⟩ ⟨"w", "WITHDRAW", 500⟩
  exact ⟨by decide, h.2 (by decide)⟩

/-- C6: when the balance `UPDATE`, the ledger `INSERT` or the `COMMIT` fails, the call
returns an error and the committed tables hold neither write: the ledger is as before and
every wallet has the balance it had.  Whatever fails, the committed tables hold both
writes of the transaction (the new balance and the new ledger entry) or neither. -/
theorem C6_balance_and_ledger_together (env : Env) (db : DB) (req : WalletOperationRequest) :
    ((env.updateErr ≠ none ∨ env.insertErr ≠ none ∨ env.commitErr ≠ none) →
        (ProcessOperation env db req).err ≠ none ∧
          (ProcessOperation env db req).db.operations = db.operations ∧
          ∀ v, balanceOf (ProcessOperation env db req).db v = balanceOf db v) ∧
      (((ProcessOperation env db req).db.operations = db.operations ∧
          ∀ v, balanceOf (ProcessOperation env db req).db v = balanceOf db v) ∨
        ∃ nb, newBalance (currentWallet db req.WalletID) req = .ok nb ∧
          (ProcessOperation env db req).db.operations = db.operations ++ [mkOperation env req] ∧
          balanceOf (ProcessOperation env db req).db req.WalletID = nb) := by
  have hops := findOrCreateWallet_operations env db req
  have hbal := findOrCreateWallet_balanceOf env db req
  rcases ProcessOperation_db_cases env db req with
    ⟨he, hd⟩ | ⟨he, hu, hi, hc, wallet, nb, hw, hn, _, hd⟩
  · have hsame : (ProcessOperation env db req).db.operations = db.operations ∧
        ∀ v, balanceOf (ProcessOperation env db req).db v = balanceOf db v := by
      rcases hd with hd | hd <;> rw [hd]
      · exact ⟨rfl, fun _ => rfl⟩
      · exact ⟨hops, hbal⟩
    exact ⟨fun _ => ⟨he, hsame⟩, Or.inl hsame⟩
  · refine ⟨fun hf => ?_, Or.inr ⟨nb, ?_, ?_, ?_⟩⟩
    · rcases hf with hf | hf | hf
      · exact absurd hu hf
      · exact absurd hi hf
      · exact absurd hc hf
    · rw [← (findOrCreateWallet_ok env db req wallet hw).1]
      exact hn
    · rw [hd]
      simp only [insertOperation, setBalance, hops]
    · rw [hd, (findOrCreateWallet_ok env db req wallet hw).2]
      exact balanceOf_after_write db nb req.WalletID _

/-- Witness for C6: the ledger `INSERT` fails after the balance `UPDATE` was issued; the
call fails and neither write is in the committed tables. -/
theorem C6_balance_and_ledger_together_witness :
    (ProcessOperation { Env.ok "op-1" 0 with insertErr := some "connection reset" }
        ⟨[⟨"w", 100⟩], []⟩ ⟨"w", "DEPOSIT", 5⟩).err ≠ none ∧
      (ProcessOperation { Env.ok "op-1" 0 with insertErr := some "connection reset" }
        ⟨[⟨"w", 100⟩], []⟩ ⟨"w", "DEPOSIT", 5⟩).db.operations = [] ∧
      ∀ v, balanceOf (ProcessOperation { Env.ok "op-1" 0 with insertErr := some "connection reset" }
        ⟨[⟨"w", 100⟩], []⟩ ⟨"w", "DEPOSIT", 5⟩).db v = balanceOf ⟨[⟨"w", 100⟩], []⟩ v :=
  (C6_balance_and_ledger_together { Env.ok "op-1" 0 with insertErr := some "connection reset" }
    ⟨[⟨"w", 100⟩], []⟩ ⟨"w", "DEPOSIT", 5⟩).1 (Or.inr (Or.inl (by decide)))

/-! ## The transaction on the exit paths -/

/-- C8 fails at this input: a `WITHDRAW 20` from balance 10 returns
`InsufficientFundsError` with the transaction neither committed nor rolled back, and so
does a request of an unknown kind; the deferred function tests the variable `err`, which
the two `return` statements inside the `switch` do not assign. -/
theorem C8_rejection_leaves_transaction_active :
    (ProcessOperation (Env.ok "op-1" 0) ⟨[⟨"w", 10⟩], []⟩ ⟨"w", "WITHDRAW", 20⟩).err =
        some .InsufficientFundsError ∧
      (ProcessOperation (Env.ok "op-1" 0) ⟨[⟨"w", 10⟩], []⟩ ⟨"w", "WITHDRAW", 20⟩).tx =
        some .active ∧
      (ProcessOperation (Env.ok "op-1" 0) ⟨[⟨"w", 10⟩], []⟩ ⟨"w", "TRANSFER", 20⟩).err =
        some (.msg "database.ProcessOperation: invalid operation type") ∧
      (ProcessOperation (Env.ok "op-1" 0) ⟨[⟨"w", 10⟩], []⟩ ⟨"w", "TRANSFER", 20⟩).tx =
        some .active := by
  decide

/-! ## Wallet creation -/

/-- C9, as stated, fails: `WITHDRAW 5` on a wallet id that is not in the store is refused
with `InsufficientFundsError`, and afterwards the store has a row for that id. -/
theorem C9_rejected_call_keeps_wallet_row_counterexample :
    selectWallet DB.empty "w" = none ∧
      (ProcessOperation (Env.ok "op-1" 0) DB.empty ⟨"w", "WITHDRAW", 5⟩).err =
        some .InsufficientFundsError ∧
      (ProcessOperation (Env.ok "op-1" 0) DB.empty ⟨"w", "WITHDRAW", 5⟩).db.wallets =
        [⟨"w", 0⟩] ∧
      (ProcessOperation (Env.ok "op-1" 0) DB.empty ⟨"w", "WITHDRAW", 5⟩).db ≠ DB.empty := by
  decide

/-- C9 (amended): `CreateWallet` runs on the pool handle, outside the transaction.  For a
wallet id that is not in the store, when `BeginTx`, the `SELECT` and the `INSERT INTO
wallets` succeed and the call then returns an error (a rejection, or a failed `UPDATE`,
ledger `INSERT` or `COMMIT`), the store afterwards holds one more wallet row, for that id
with balance 0, and is otherwise unchanged: the other rows and the ledger are as before. -/
theorem C9_wallet_row_survives_failure (env : Env) (db : DB) (req : WalletOperationRequest)
    (hb : env.beginErr = none) (hs : env.selectErr = none) (hc : env.createErr = none)
    (habs : selectWallet db req.WalletID = none)
    (herr : (ProcessOperation env db req).err ≠ none) :
    (ProcessOperation env db req).db.wallets =
        db.wallets ++ [{ WalletID := req.WalletID, Balance := 0 }] ∧
      (ProcessOperation env db req).db.operations = db.operations := by
  have hf := findOrCreateWallet_eq env db req hs hc
  have hw : withWallet db req.WalletID = insertWallet db req.WalletID := by
    unfold withWallet
    rw [habs]
  have hdb : (ProcessOperation env db req).db = insertWallet db req.WalletID := by
    revert herr
    unfold ProcessOperation
    rw [hb, hf, hw]
    simp only
    cases newBalance (currentWallet db req.WalletID) req with
    | error e => intro _; rfl
    | ok nb =>
      cases env.updateErr with
      | some m => intro _; rfl
      | none =>
        unfold updateBalance
        by_cases hacc : balanceColumnAccepts nb = true
        · simp only [hacc, if_true]
          cases env.insertErr with
          | some m => intro _; rfl
          | none =>
            cases env.commitErr with
            | some m => intro _; rfl
            | none => intro h; exact absurd rfl h
        · simp only [hacc, if_false]
          intro _
          rfl
  rw [hdb]
  exact ⟨rfl, rfl⟩

/-- Witness for C9: `WITHDRAW 5` on an unknown wallet, beside an existing wallet. -/
theorem C9_wallet_row_survives_failure_witness :
    (ProcessOperation (Env.ok "op-1" 0) ⟨[⟨"v", 40⟩], []⟩ ⟨"w", "WITHDRAW", 5⟩).db.wallets =
        [⟨"v", 40⟩] ++ [{ WalletID := "w", Balance := 0 }] ∧
      (ProcessOperation (Env.ok "op-1" 0) ⟨[⟨"v", 40⟩], []⟩ ⟨"w", "WITHDRAW", 5⟩).db.operations =
        [] :=
  C9_wallet_row_survives_failure (Env.ok "op-1" 0) ⟨[⟨"v", 40⟩], []⟩ ⟨"w", "WITHDRAW", 5⟩
    rfl rfl rfl (by decide) (by decide)

/-! ## Non-positive amounts -/

/-- C10, as stated, fails: a `DEPOSIT` of `-5` that reaches `ProcessOperation` is accepted,
takes the balance from 10 to 5 and appends a ledger entry. -/
theorem C10_nonpositive_amount_accepted_counterexample :
    (-5 : Int) ≤ 0 ∧
      (ProcessOperation (Env.ok "op-1" 0) ⟨[⟨"w", 10⟩], []⟩ ⟨"w", "DEPOSIT", -5⟩).err = none ∧
      (ProcessOperation (Env.ok "op-1" 0) ⟨[⟨"w", 10⟩], []⟩ ⟨"w", "DEPOSIT", -5⟩).db =
        ⟨[⟨"w", 5⟩], [⟨"op-1", "w", "DEPOSIT", -5, 0⟩]⟩ := by
  decide

/-- C10 (amended): the amount is checked by `validateRequest`, which `HandleWalletOperation`
runs before it calls `ProcessOperation` and which returns an error for every request with
amount ≤ 0; `ProcessOperation` has no check of its own: a `DEPOSIT` of an amount `a ≤ 0`
that reaches it without store failures (no call failed by the driver, the `UPDATE` not
refused by the table) is accepted and stores Go's `b + a`, a `WITHDRAW` of `a ≤ 0` is
refused with `InsufficientFundsError` only when `b < a`. -/
theorem C10_amount_validated_upstream (uuidParses : String → Bool) (id : String) (now : Nat)
    (db : DB) (req : WalletOperationRequest) (ha : req.Amount ≤ 0) :
    validateRequest uuidParses req ≠ none ∧
      (req.OperationType = "DEPOSIT" →
        ((ProcessOperation (Env.ok id now) db req).err = none ↔
            balanceColumnAccepts (goAdd (balanceOf db req.WalletID) req.Amount) = true) ∧
          (balanceColumnAccepts (goAdd (balanceOf db req.WalletID) req.Amount) = true →
            balanceOf (ProcessOperation (Env.ok id now) db req).db req.WalletID =
              goAdd (balanceOf db req.WalletID) req.Amount)) ∧
      (req.OperationType = "WITHDRAW" →
        ((ProcessOperation (Env.ok id now) db req).err = none ↔
            req.Amount ≤ balanceOf db req.WalletID ∧
              balanceColumnAccepts (goSub (balanceOf db req.WalletID) req.Amount) = true) ∧
          ((ProcessOperation (Env.ok id now) db req).err = some .InsufficientFundsError ↔
            balanceOf db req.WalletID < req.Amount)) := by
  refine ⟨?_, ?_, ?_⟩
  · unfold validateRequest
    rw [if_pos ha]
    split_ifs <;> simp
  · intro hk
    rw [ProcessOperation_ok]
    unfold newBalance
    rw [if_pos hk, currentWallet_balance]
    simp only
    cases hacc : balanceColumnAccepts (goAdd (balanceOf db req.WalletID) req.Amount) with
    | false => simp
    | true =>
      simp only [if_true, true_iff, forall_const]
      exact ⟨trivial, balanceOf_after_write _ _ _ _⟩
  · intro hk
    have hne : req.OperationType ≠ "DEPOSIT" := by rw [hk]; decide
    rw [ProcessOperation_ok]
    unfold newBalance
    rw [if_neg hne, if_pos hk, currentWallet_balance]
    by_cases hlt : balanceOf db req.WalletID < req.Amount
    · rw [if_pos hlt]
      simp only [hlt, iff_true]
      refine ⟨?_, trivial⟩
      constructor
      · intro h
        simp at h
      · intro h
        omega
    · rw [if_neg hlt]
      have hle : req.Amount ≤ balanceOf db req.WalletID := not_lt.mp hlt
      simp only [hle, true_and, hlt, iff_false]
      cases hacc : balanceColumnAccepts (goSub (balanceOf db req.WalletID) req.Amount) with
      | false => simp [balanceRefused]
      | true => simp

/-- Witness for C10: amount 0 on a well-formed request. -/
theorem C10_amount_validated_upstream_witness :
    (0 : Int) ≤ 0 ∧
      validateRequest (fun _ => true)
        ⟨"a1b2c3d4-e5f6-7890-1234-567890abcdef", "DEPOSIT", 0⟩ ≠ none :=
  ⟨le_refl 0, (C10_amount_validated_upstream (fun _ => true) "op-1" 0 DB.empty
    ⟨"a1b2c3d4-e5f6-7890-1234-567890abcdef", "DEPOSIT", 0⟩ (by decide)).1⟩

/-! ## The ledger invariant -/

theorem ledgerSum_append (ops : List Operation) (o : Operation) (v k : String) :
    ledgerSum (ops ++ [o]) v k =
      ledgerSum ops v k + (if o.WalletID = v ∧ o.OpType = k then o.Amount else 0) := by
  unfold ledgerSum
  by_cases h : o.WalletID = v ∧ o.OpType = k
  · have hb : (o.WalletID == v && o.OpType == k) = true := by simpa using h
    rw [if_pos h, List.filter_append, List.map_append, List.sum_append]
    simp [List.filter, hb]
  · have hb : (o.WalletID == v && o.OpType == k) = false := by simpa using h
    rw [if_neg h, List.filter_append, List.map_append, List.sum_append]
    simp [List.filter, hb]

theorem ledgerBalance_append_other (ops : List Operation) (o : Operation) (v : String)
    (h : o.WalletID ≠ v) : ledgerBalance (ops ++ [o]) v = ledgerBalance ops v := by
  unfold ledgerBalance
  rw [ledgerSum_append, ledgerSum_append]
  simp [h]

theorem ledgerBalance_append_deposit (ops : List Operation) (o : Operation)
    (hk : o.OpType = "DEPOSIT") :
    ledgerBalance (ops ++ [o]) o.WalletID = ledgerBalance ops o.WalletID + o.Amount := by
  unfold ledgerBalance
  rw [ledgerSum_append, ledgerSum_append]
  simp [hk]
  omega

theorem ledgerBalance_append_withdraw (ops : List Operation) (o : Operation)
    (hk : o.OpType = "WITHDRAW") :
    ledgerBalance (ops ++ [o]) o.WalletID = ledgerBalance ops o.WalletID - o.Amount := by
  unfold ledgerBalance
  rw [ledgerSum_append, ledgerSum_append]
  simp [hk]
  omega

theorem ledgerBalance_no_entries (ops : List Operation) (v : String)
    (h : ∀ o ∈ ops, o.WalletID ≠ v) : ledgerBalance ops v = 0 := by
  have hs : ∀ k, ledgerSum ops v k = 0 := by
    intro k
    unfold ledgerSum
    have hf : ops.filter (fun o => o.WalletID == v && o.OpType == k) = [] := by
      rw [List.filter_eq_nil_iff]
      intro o ho
      simp [h o ho]
    rw [hf]
    rfl
  unfold ledgerBalance
  rw [hs, hs]
  rfl

theorem storeInvariant_empty : storeInvariant DB.empty := by
  constructor
  · intro r hr
    simp [DB.empty] at hr
  · intro o ho
    simp [DB.empty] at ho

theorem storeInvariant_insertWallet (db : DB) (w : String) (hinv : storeInvariant db)
    (habs : selectWallet db w = none) : storeInvariant (insertWallet db w) := by
  obtain ⟨hrows, hops⟩ := hinv
  have hno := (selectWallet_eq_none db w).1 habs
  constructor
  · intro r hr
    simp only [insertWallet, List.mem_append, List.mem_singleton] at hr
    rcases hr with hr | hr
    · exact hrows r hr
    · subst hr
      have hz : ledgerBalance db.operations w = 0 := by
        apply ledgerBalance_no_entries
        intro o ho hw
        obtain ⟨r, hr, hid⟩ := hops o ho
        exact hno r hr (hid.trans hw)
      show walletsBalanceDefault = ledgerBalance db.operations w ∧
        0 ≤ walletsBalanceDefault ∧ walletsBalanceDefault ≤ maxInt
      rw [hz]
      simp [walletsBalanceDefault, maxInt]
  · intro o ho
    obtain ⟨r, hr, hid⟩ := hops o ho
    exact ⟨r, by simp [insertWallet, hr], hid⟩

theorem storeInvariant_withWallet (db : DB) (w : String) (hinv : storeInvariant db) :
    storeInvariant (withWallet db w) := by
  unfold withWallet
  cases h : selectWallet db w with
  | some r => exact hinv
  | none => exact storeInvariant_insertWallet db w hinv h

theorem storeInvariant_write (db : DB) (w : String) (cur : Wallets) (nb : Int) (o : Operation)
    (hinv : storeInvariant db) (hcur : selectWallet db w = some cur) (ho : o.WalletID = w)
    (hnb : ledgerBalance (db.operations ++ [o]) w = nb) (h0 : 0 ≤ nb) (hmax : nb ≤ maxInt) :
    storeInvariant (insertOperation (setBalance db nb w) o) := by
  obtain ⟨hrows, hops⟩ := hinv
  obtain ⟨hmem, hid⟩ := selectWallet_some_mem db w cur hcur
  constructor
  · intro r' hr'
    simp only [insertOperation, setBalance, List.mem_map] at hr'
    obtain ⟨r, hr, hfr⟩ := hr'
    show r'.Balance = ledgerBalance (db.operations ++ [o]) r'.WalletID ∧ _
    by_cases hw : r.WalletID = w
    · have hb : (r.WalletID == w) = true := by simpa using hw
      rw [if_pos hb] at hfr
      subst hfr
      simp only
      rw [hw, hnb]
      exact ⟨rfl, h0, hmax⟩
    · have hb : ¬ (r.WalletID == w) = true := by simpa using hw
      rw [if_neg hb] at hfr
      subst hfr
      rw [ledgerBalance_append_other _ _ _ (by rw [ho]; exact fun e => hw e.symm)]
      exact hrows r hr
  · intro o' ho'
    simp only [insertOperation, List.mem_append, List.mem_singleton] at ho'
    have hkeep : ∀ r ∈ db.wallets, ∃ r' ∈ (setBalance db nb w).wallets,
        r'.WalletID = r.WalletID := by
      intro r hr
      refine ⟨_, List.mem_map_of_mem _ hr, setBalance_row_id nb w r⟩
    rcases ho' with ho' | ho'
    · obtain ⟨r, hr, hrid⟩ := hops o' ho'
      obtain ⟨r', hr', hrid'⟩ := hkeep r hr
      exact ⟨r', hr', hrid'.trans hrid⟩
    · obtain ⟨r', hr', hrid'⟩ := hkeep cur hmem
      exact ⟨r', hr', by rw [hrid', hid, ho', ho]⟩

/-- One call of `ProcessOperation` with a positive 64-bit amount keeps the invariant: a
deposit that would overflow is refused by the table. -/
theorem storeInvariant_step (env : Env) (db : DB) (req : WalletOperationRequest)
    (hinv : storeInvariant db) (ha : 0 < req.Amount) (hamax : req.Amount ≤ maxInt) :
    storeInvariant (ProcessOperation env db req).db := by
  rcases ProcessOperation_db_cases env db req with
    ⟨_, hd⟩ | ⟨_, _, _, _, wallet, nb, hw, hn, hacc, hd⟩
  · rcases hd with hd | hd
    · rw [hd]
      exact hinv
    · rw [hd]
      rcases findOrCreateWallet_db env db req with h | ⟨habs, h⟩
      · rw [h]
        exact hinv
      · rw [h]
        exact storeInvariant_insertWallet db req.WalletID hinv habs
  · obtain ⟨hwal, hdb1⟩ := findOrCreateWallet_ok env db req wallet hw
    rw [hd, hdb1]
    have hinv1 := storeInvariant_withWallet db req.WalletID hinv
    have hcur := selectWallet_withWallet db req.WalletID
    have hcurmem := (selectWallet_some_mem _ _ _ hcur).1
    have hcurid := (selectWallet_some_mem _ _ _ hcur).2
    obtain ⟨hbal, hb0, hbmax⟩ := hinv1.1 _ hcurmem
    rw [hcurid, withWallet_operations] at hbal
    rw [currentWallet_balance] at hbal hb0 hbmax
    rw [hwal] at hn
    unfold newBalance at hn
    rw [currentWallet_balance] at hn
    have hops : (withWallet db req.WalletID).operations = db.operations :=
      withWallet_operations db req.WalletID
    by_cases hk : req.OperationType = "DEPOSIT"
    · rw [if_pos hk] at hn
      have hnb0 : goAdd (balanceOf db req.WalletID) req.Amount = nb := by
        simpa using hn
      rw [← hnb0] at hacc
      have hlo : minInt ≤ balanceOf db req.WalletID := by
        unfold minInt
        omega
      obtain ⟨hwrap, hf⟩ := goAdd_of_accepted _ _ hlo hbmax ha hamax hacc
      have hnb : balanceOf db req.WalletID + req.Amount = nb := by
        rw [← hwrap]
        exact hnb0
      apply storeInvariant_write _ _ _ _ _ hinv1 hcur rfl
      · rw [hops]
        have := ledgerBalance_append_deposit db.operations (mkOperation env req) hk
        simp only [mkOperation] at this ⊢
        rw [this, ← hbal, hnb]
      · omega
      · omega
    · rw [if_neg hk] at hn
      by_cases hk2 : req.OperationType = "WITHDRAW"
      · rw [if_pos hk2] at hn
        by_cases hlt : balanceOf db req.WalletID < req.Amount
        · rw [if_pos hlt] at hn
          cases hn
        · rw [if_neg hlt] at hn
          have hwrap : goSub (balanceOf db req.WalletID) req.Amount =
              balanceOf db req.WalletID - req.Amount := by
            unfold goSub
            apply wrapInt_of_fits
            · unfold minInt
              omega
            · omega
          rw [hwrap] at hn
          have hnb : balanceOf db req.WalletID - req.Amount = nb := by
            simpa using hn
          apply storeInvariant_write _ _ _ _ _ hinv1 hcur rfl
          · rw [hops]
            have := ledgerBalance_append_withdraw db.operations (mkOperation env req) hk2
            simp only [mkOperation] at this ⊢
            rw [this, ← hbal, hnb]
          · omega
          · omega
      · rw [if_neg hk2] at hn
        cases hn

theorem storeInvariant_applyAll (calls : List (Env × WalletOperationRequest)) :
    ∀ (db : DB) (n : Nat), storeInvariant db →
      (∀ c ∈ calls, 0 < c.2.Amount ∧ c.2.Amount ≤ maxInt) →
      storeInvariant (applyAll db (calls.take n)) := by
  induction calls with
  | nil =>
    intro db n hinv _
    simpa [applyAll] using hinv
  | cons c rest ih =>
    intro db n hinv hpos
    cases n with
    | zero => simpa [applyAll] using hinv
    | succ n =>
      have hc := hpos c (List.mem_cons_self _ _)
      have hstep := storeInvariant_step c.1 db c.2 hinv hc.1 hc.2
      have := ih _ n hstep (fun c' hc' => hpos c' (List.mem_cons_of_mem _ hc'))
      simpa [applyAll] using this

/-- C1: for every finite sequence of calls (kind `DEPOSIT` or `WITHDRAW`, positive amount
of Go's `int`, any store failures) applied one after another through `ProcessOperation` to
an initially empty store, after every step each wallet's stored balance equals the sum of
the amounts of its `DEPOSIT` ledger entries minus the sum of the amounts of its `WITHDRAW`
ledger entries, and is ≥ 0. -/
theorem C1_ledger_invariant (calls : List (Env × WalletOperationRequest))
    (hpos : ∀ c ∈ calls, 0 < c.2.Amount ∧ c.2.Amount ≤ maxInt ∧
      (c.2.OperationType = "DEPOSIT" ∨ c.2.OperationType = "WITHDRAW"))
    (n : Nat) :
    ledgerInvariant (applyAll DB.empty (calls.take n)) := by
  have h := storeInvariant_applyAll calls DB.empty n storeInvariant_empty
    (fun c hc => ⟨(hpos c hc).1, (hpos c hc).2.1⟩)
  intro r hr
  exact ⟨(h.1 r hr).1, (h.1 r hr).2.1⟩

/-- Witness for C1: a deposit, a withdrawal, a refused withdrawal, a deposit on a second
wallet and a deposit that would overflow. -/
theorem C1_ledger_invariant_witness :
    ledgerInvariant (applyAll DB.empty
      ([(Env.ok "op-1" 0, (⟨"w", "DEPOSIT", 500⟩ : WalletOperationRequest)),
        (Env.ok "op-2" 1, ⟨"w", "WITHDRAW", 200⟩),
        (Env.ok "op-3" 2, ⟨"w", "WITHDRAW", 1000⟩),
        (Env.ok "op-4" 3, ⟨"v", "DEPOSIT", 50⟩),
        (Env.ok "op-5" 4, ⟨"w", "DEPOSIT", 9223372036854775807⟩)].take 5)) :=
  C1_ledger_invariant
    [(Env.ok "op-1" 0, ⟨"w", "DEPOSIT", 500⟩), (Env.ok "op-2" 1, ⟨"w", "WITHDRAW", 200⟩),
      (Env.ok "op-3" 2, ⟨"w", "WITHDRAW", 1000⟩), (Env.ok "op-4" 3, ⟨"v", "DEPOSIT", 50⟩),
      (Env.ok "op-5" 4, ⟨"w", "DEPOSIT", 9223372036854775807⟩)]
    (by decide) 5

/-! ## Overlapping calls -/

theorem Call.run_returned (db : DB) (env : Env) (req : WalletOperationRequest)
    (e : Option Err) (t : Option TxStatus) (n : Nat) :
    Call.run db { env := env, req := req, stage := .returned e t } n =
      (db, { env := env, req := req, stage := .returned e t }) := by
  induction n with
  | zero => rfl
  | succ n ih => simpa [Call.run, Call.step] using ih

theorem Call.run_succ (db : DB) (c : Call) (n : Nat) :
    Call.run db c (n + 1) = Call.run (Call.step db c).1 (Call.step db c).2 n := rfl

/-- From the `switch` on, a call run alone ends as `ProcessOperation` does. -/
theorem Call.run_deciding (env : Env) (db : DB) (req : WalletOperationRequest)
    (wallet : Wallets) (n : Nat) :
    Call.run db ⟨env, req, .deciding wallet⟩ (n + 3) =
      match newBalance wallet req with
      | .error e => (db, ⟨env, req, .returned (some e) (some .active)⟩)
      | .ok nb =>
        match env.updateErr with
        | some m =>
          (db, ⟨env, req, .returned
            (some (.wrap "database.ProcessOperation: update wallet error" (.msg m)))
            (some .rolledBack)⟩)
        | none =>
          match updateBalance db nb req.WalletID with
          | none =>
            (db, ⟨env, req, .returned
              (some (.wrap "database.ProcessOperation: update wallet error" balanceRefused))
              (some .rolledBack)⟩)
          | some updated =>
            match env.insertErr with
            | some m =>
              (db, ⟨env, req, .returned
                (some (.wrap "database.ProcessOperation: insert operation error" (.msg m)))
                (some .rolledBack)⟩)
            | none =>
              match env.commitErr with
              | some m => (db, ⟨env, req, .returned (some (.msg m)) (some .rolledBack)⟩)
              | none =>
                (insertOperation updated (mkOperation env req),
                  ⟨env, req, .returned none (some .committed)⟩) := by
  rw [Call.run_succ]
  simp only [Call.step, Call.goto]
  cases newBalance wallet req with
  | error e => simp only [Call.run_returned]
  | ok nb =>
    simp only
    cases env.updateErr with
    | some m => simp only [Call.run_returned]
    | none =>
      simp only [updateBalance]
      by_cases hacc : balanceColumnAccepts nb = true
      · simp only [hacc, if_true]
        rw [Call.run_succ]
        simp only [Call.step, Call.goto]
        cases env.insertErr with
        | some m => simp only [Call.run_returned]
        | none =>
          simp only
          rw [Call.run_succ]
          simp only [Call.step, Call.goto]
          cases env.commitErr with
          | some m => simp only [Call.run_returned]
          | none => simp only [Call.run_returned]
      · simp only [hacc, if_false, Bool.false_eq_true]
        simp only [Call.run_returned]

/-- A call run alone for six steps has returned, with the outcome of `ProcessOperation`. -/
theorem Call.run_eq_ProcessOperation (env : Env) (db : DB) (req : WalletOperationRequest) :
    Call.run db (Call.new env req) 6 =
      ((ProcessOperation env db req).db,
        { env := env, req := req,
          stage := .returned (ProcessOperation env db req).err (ProcessOperation env db req).tx }) := by
  unfold ProcessOperation findOrCreateWallet
  rw [Call.run_succ]
  simp only [Call.new, Call.step, Call.goto]
  cases env.beginErr with
  | some m => simp only [Call.run_returned]
  | none =>
    simp only
    rw [Call.run_succ]
    simp only [Call.step, Call.goto]
    cases GetWallet env db req.WalletID with
    | ok w =>
      simp only
      rw [Call.run_deciding]
      cases newBalance w req with
      | error e => rfl
      | ok nb =>
        simp only
        cases env.updateErr with
        | some m => rfl
        | none =>
          simp only
          cases updateBalance db nb req.WalletID with
          | none => rfl
          | some updated =>
            simp only
            cases env.insertErr with
            | some m => rfl
            | none =>
              simp only
              cases env.commitErr <;> rfl
    | error e =>
      simp only
      by_cases he : e.isErrNoRows = true
      · simp only [he, if_true]
        rw [Call.run_succ]
        simp only [Call.step, Call.goto]
        rcases CreateWallet env db req.WalletID with ⟨ce, db1⟩
        cases ce with
        | some ce => simp only [Call.run_returned]
        | none =>
          simp only
          rw [Call.run_deciding]
          cases newBalance { WalletID := req.WalletID, Balance := 0 } req with
          | error e => rfl
          | ok nb =>
            simp only
            cases env.updateErr with
            | some m => rfl
            | none =>
              simp only
              cases updateBalance db1 nb req.WalletID with
              | none => rfl
              | some updated =>
                simp only
                cases env.insertErr with
                | some m => rfl
                | none =>
                  simp only
                  cases env.commitErr <;> rfl
      · simp only [he, if_false, Bool.false_eq_true]
        simp only [Call.run_returned]

theorem interleave_first (db : DB) (a b : Call) (sched : List Bool) (n : Nat) :
    interleave db a b (List.replicate n false ++ sched) =
      interleave (Call.run db a n).1 (Call.run db a n).2 b sched := by
  induction n generalizing db a with
  | zero => rfl
  | succ n ih =>
    rw [List.replicate_succ, List.cons_append, Call.run_succ]
    exact ih _ _

theorem interleave_second (db : DB) (a b : Call) (n : Nat) :
    interleave db a b (List.replicate n true) =
      ((Call.run db b n).1, a, (Call.run db b n).2) := by
  induction n generalizing db b with
  | zero => rfl
  | succ n ih =>
    rw [List.replicate_succ, Call.run_succ]
    exact ih _ _

/-- Two calls that do not overlap behave as two calls of `ProcessOperation` in a row. -/
theorem interleave_sequential (db : DB) (e1 e2 : Env) (r1 r2 : WalletOperationRequest) :
    interleave db (Call.new e1 r1) (Call.new e2 r2)
        (List.replicate 6 false ++ List.replicate 6 true) =
      ((ProcessOperation e2 (ProcessOperation e1 db r1).db r2).db,
        ⟨e1, r1, .returned (ProcessOperation e1 db r1).err (ProcessOperation e1 db r1).tx⟩,
        ⟨e2, r2, .returned (ProcessOperation e2 (ProcessOperation e1 db r1).db r2).err
          (ProcessOperation e2 (ProcessOperation e1 db r1).db r2).tx⟩) := by
  rw [interleave_first, interleave_second, Call.run_eq_ProcessOperation,
    Call.run_eq_ProcessOperation]

theorem balanceOf_withWallet (db : DB) (w : String) :
    balanceOf (withWallet db w) w = balanceOf db w := by
  rw [← currentWallet_balance db w]
  unfold balanceOf
  rw [selectWallet_withWallet]

/-- C7, as stated, fails: with balance 100 and two calls that each `WITHDRAW 80`, the
schedule in which both calls run `BeginTx` and `GetWallet` before either writes (the first
call then updates, inserts and commits, and after that the second does) ends with both
calls returning no error, balance 20 and two `WITHDRAW 80` entries in the ledger, which
then sums to -60.  The read of the second call lies between the read and the write of the
first. -/
theorem C7_both_withdrawals_succeed_counterexample :
    interleave ⟨[⟨"w", 100⟩], [⟨"op-0", "w", "DEPOSIT", 100, 0⟩]⟩
        (Call.new (Env.ok "op-1" 1) ⟨"w", "WITHDRAW", 80⟩)
        (Call.new (Env.ok "op-2" 2) ⟨"w", "WITHDRAW", 80⟩)
        [false, false, true, true, false, false, false, true, true, true] =
      (⟨[⟨"w", 20⟩], [⟨"op-0", "w", "DEPOSIT", 100, 0⟩, ⟨"op-1", "w", "WITHDRAW", 80, 1⟩,
          ⟨"op-2", "w", "WITHDRAW", 80, 2⟩]⟩,
        ⟨Env.ok "op-1" 1, ⟨"w", "WITHDRAW", 80⟩, .returned none (some .committed)⟩,
        ⟨Env.ok "op-2" 2, ⟨"w", "WITHDRAW", 80⟩, .returned none (some .committed)⟩) ∧
      ledgerBalance [⟨"op-0", "w", "DEPOSIT", 100, 0⟩, ⟨"op-1", "w", "WITHDRAW", 80, 1⟩,
        ⟨"op-2", "w", "WITHDRAW", 80, 2⟩] "w" = -60 := by
  decide

theorem mem_schedules (sched : List Bool) :
    sched ∈ schedules sched.length (sched.count false) := by
  induction sched with
  | nil => simp [schedules]
  | cons t rest ih =>
    cases t with
    | false =>
      rw [List.length_cons, List.count_cons_self]
      simp only [schedules, List.mem_append, List.mem_map]
      exact Or.inl ⟨rest, ih, rfl⟩
    | true =>
      have hc : (true :: rest).count false = rest.count false := by
        simp
      rw [List.length_cons, hc]
      cases hk : rest.count false with
      | zero =>
        rw [hk] at ih
        simp only [schedules, List.mem_map]
        exact ⟨rest, ih, rfl⟩
      | succ k =>
        rw [hk] at ih
        simp only [schedules, List.mem_append, List.mem_map]
        exact Or.inr ⟨rest, ih, rfl⟩

theorem Call.step_env_req (db : DB) (c : Call) :
    (Call.step db c).2 = ⟨c.env, c.req, (Call.step db c).2.stage⟩ := by
  unfold Call.step
  split
  · split <;> rfl
  · split
    · rfl
    · split <;> rfl
  · split <;> rfl
  · split
    · rfl
    · split
      · rfl
      · split <;> rfl
  · split <;> rfl
  · split <;> rfl
  · rfl

theorem Stage.onCanonical_returned (st : Stage) (e : Option Err) (t : Option TxStatus)
    (h : st.onCanonical = .returned e t) : st = .returned e t := by
  cases st <;> simp [Stage.onCanonical] at h ⊢
  exact h

/-- One step of a `WITHDRAW 80` without driver failures on any store in which the wallet
has a row, set against the same step on a store where the wallet `"w"` has a row with the
same balance: the stages agree and the balances still agree. -/
theorem Call.step_onCanonical (w id id0 : String) (now now0 : Nat) (db db0 : DB) (st : Stage)
    (r : Wallets) (hr : selectWallet db w = some r)
    (hr0 : selectWallet db0 "w" = some ⟨"w", r.Balance⟩) (hst : st ≠ .creating) :
    (Call.step db0 ⟨Env.ok id0 now0, ⟨"w", "WITHDRAW", 80⟩, st.onCanonical⟩).2.stage =
        (Call.step db ⟨Env.ok id now, ⟨w, "WITHDRAW", 80⟩, st⟩).2.stage.onCanonical ∧
      (Call.step db ⟨Env.ok id now, ⟨w, "WITHDRAW", 80⟩, st⟩).2.stage ≠ .creating ∧
      ∃ r', selectWallet (Call.step db ⟨Env.ok id now, ⟨w, "WITHDRAW", 80⟩, st⟩).1 w = some r' ∧
        selectWallet (Call.step db0 ⟨Env.ok id0 now0, ⟨"w", "WITHDRAW", 80⟩, st.onCanonical⟩).1
          "w" = some ⟨"w", r'.Balance⟩ := by
  have hne : ¬ ("WITHDRAW" : String) = "DEPOSIT" := by decide
  cases st with
  | start => exact ⟨rfl, by simp [Call.step, Call.goto, Env.ok], r, hr, hr0⟩
  | begun =>
    refine ⟨?_, ?_, r, ?_, ?_⟩ <;>
      simp [Call.step, Call.goto, Env.ok, GetWallet, hr, hr0, Stage.onCanonical]
  | creating => exact absurd rfl hst
  | deciding rd =>
    by_cases hlt : rd.Balance < 80
    · refine ⟨?_, ?_, r, ?_, ?_⟩ <;>
        simp [Call.step, Call.goto, Env.ok, newBalance, hlt, Stage.onCanonical, hr, hr0]
    · by_cases hacc : balanceColumnAccepts (goSub rd.Balance 80) = true
      · refine ⟨?_, ?_, r, ?_, ?_⟩ <;>
          simp [Call.step, Call.goto, Env.ok, newBalance, hlt, updateBalance, hacc,
            Stage.onCanonical, hr, hr0]
      · refine ⟨?_, ?_, r, ?_, ?_⟩ <;>
          simp [Call.step, Call.goto, Env.ok, newBalance, hlt, updateBalance, hacc,
            Stage.onCanonical, hr, hr0]
  | inserting nb =>
    refine ⟨?_, ?_, r, ?_, ?_⟩ <;>
      simp [Call.step, Call.goto, Env.ok, Stage.onCanonical, hr, hr0]
  | committing nb =>
    refine ⟨?_, ?_, ⟨r.WalletID, nb⟩, ?_, ?_⟩
    · simp [Call.step, Call.goto, Env.ok, Stage.onCanonical]
    · simp [Call.step, Call.goto, Env.ok]
    · simp only [Call.step, Env.ok]
      rw [selectWallet_insertOperation, selectWallet_setBalance_same, hr]
      rfl
    · simp only [Call.step, Env.ok, Stage.onCanonical]
      rw [selectWallet_insertOperation, selectWallet_setBalance_same, hr0]
      rfl
  | returned e t =>
    refine ⟨?_, ?_, r, ?_, ?_⟩ <;>
      simp [Call.step, Stage.onCanonical, hr, hr0]

/-- Two `WITHDRAW 80` calls without driver failures under any schedule, set against the
same schedule on a store where the wallet `"w"` has a row with the same balance. -/
theorem interleave_onCanonical (w id1 id2 : String) (now1 now2 : Nat) (sched : List Bool) :
    ∀ (db db0 : DB) (sa sb : Stage) (r : Wallets), selectWallet db w = some r →
      selectWallet db0 "w" = some ⟨"w", r.Balance⟩ → sa ≠ .creating → sb ≠ .creating →
      (interleave db0 ⟨Env.ok "op-1" 1, ⟨"w", "WITHDRAW", 80⟩, sa.onCanonical⟩
          ⟨Env.ok "op-2" 2, ⟨"w", "WITHDRAW", 80⟩, sb.onCanonical⟩ sched).2.1.stage =
          (interleave db ⟨Env.ok id1 now1, ⟨w, "WITHDRAW", 80⟩, sa⟩
            ⟨Env.ok id2 now2, ⟨w, "WITHDRAW", 80⟩, sb⟩ sched).2.1.stage.onCanonical ∧
        (interleave db0 ⟨Env.ok "op-1" 1, ⟨"w", "WITHDRAW", 80⟩, sa.onCanonical⟩
          ⟨Env.ok "op-2" 2, ⟨"w", "WITHDRAW", 80⟩, sb.onCanonical⟩ sched).2.2.stage =
          (interleave db ⟨Env.ok id1 now1, ⟨w, "WITHDRAW", 80⟩, sa⟩
            ⟨Env.ok id2 now2, ⟨w, "WITHDRAW", 80⟩, sb⟩ sched).2.2.stage.onCanonical ∧
        balanceOf (interleave db ⟨Env.ok id1 now1, ⟨w, "WITHDRAW", 80⟩, sa⟩
            ⟨Env.ok id2 now2, ⟨w, "WITHDRAW", 80⟩, sb⟩ sched).1 w =
          balanceOf (interleave db0 ⟨Env.ok "op-1" 1, ⟨"w", "WITHDRAW", 80⟩, sa.onCanonical⟩
            ⟨Env.ok "op-2" 2, ⟨"w", "WITHDRAW", 80⟩, sb.onCanonical⟩ sched).1 "w" := by
  induction sched with
  | nil =>
    intro db db0 sa sb r hr hr0 _ _
    refine ⟨rfl, rfl, ?_⟩
    simp only [interleave, balanceOf, hr, hr0]
  | cons t rest ih =>
    intro db db0 sa sb r hr hr0 hsa hsb
    cases t with
    | false =>
      obtain ⟨h1, h2, r', hr', hr0'⟩ :=
        Call.step_onCanonical w id1 "op-1" now1 1 db db0 sa r hr hr0 hsa
      have e := Call.step_env_req db ⟨Env.ok id1 now1, ⟨w, "WITHDRAW", 80⟩, sa⟩
      have e0 := Call.step_env_req db0 ⟨Env.ok "op-1" 1, ⟨"w", "WITHDRAW", 80⟩, sa.onCanonical⟩
      simp only [interleave]
      rw [e, e0, h1]
      exact ih _ _ _ sb r' hr' hr0' h2 hsb
    | true =>
      obtain ⟨h1, h2, r', hr', hr0'⟩ :=
        Call.step_onCanonical w id2 "op-2" now2 2 db db0 sb r hr hr0 hsb
      have e := Call.step_env_req db ⟨Env.ok id2 now2, ⟨w, "WITHDRAW", 80⟩, sb⟩
      have e0 := Call.step_env_req db0 ⟨Env.ok "op-2" 2, ⟨"w", "WITHDRAW", 80⟩, sb.onCanonical⟩
      simp only [interleave]
      rw [e, e0, h1]
      exact ih _ _ sa _ r' hr' hr0' hsa h2

set_option maxRecDepth 8000 in
set_option maxHeartbeats 2000000 in
/-- On the store that holds only the wallet with balance 100, every schedule of five turns
each ends with balance 20, each call refused exactly when it read after the other's
commit. -/
theorem interleave_canonical :
    ∀ sched ∈ schedules 10 5,
      balanceOf (interleave ⟨[⟨"w", 100⟩], []⟩
          (Call.new (Env.ok "op-1" 1) ⟨"w", "WITHDRAW", 80⟩)
          (Call.new (Env.ok "op-2" 2) ⟨"w", "WITHDRAW", 80⟩) sched).1 "w" = 20 ∧
        (interleave ⟨[⟨"w", 100⟩], []⟩
          (Call.new (Env.ok "op-1" 1) ⟨"w", "WITHDRAW", 80⟩)
          (Call.new (Env.ok "op-2" 2) ⟨"w", "WITHDRAW", 80⟩) sched).2.1.stage =
          withdrawalEnd (readsAfterCommit false sched) ∧
        (interleave ⟨[⟨"w", 100⟩], []⟩
          (Call.new (Env.ok "op-1" 1) ⟨"w", "WITHDRAW", 80⟩)
          (Call.new (Env.ok "op-2" 2) ⟨"w", "WITHDRAW", 80⟩) sched).2.2.stage =
          withdrawalEnd (readsAfterCommit true sched) := by
  decide

theorem withdrawalEnd_of_onCanonical (st : Stage) (late : Bool)
    (h : st.onCanonical = withdrawalEnd late) : st = withdrawalEnd late := by
  cases late
  · exact Stage.onCanonical_returned st _ _ h
  · exact Stage.onCanonical_returned st _ _ h

/-- C7 (amended): for a wallet with balance 100 and two calls of `ProcessOperation` that
each `WITHDRAW 80` without driver failures, every schedule of their steps (five turns
each: `BeginTx`, `GetWallet`, the `switch` with the `UPDATE`, the ledger `INSERT`,
`Commit`; a call that has returned idles) ends with balance 20, and a call is refused with
`InsufficientFundsError` exactly when it ran `GetWallet` after the other call's `Commit`;
otherwise it is committed.  So one call succeeds and the other is refused when one reads
after the other has committed, and both succeed when both read before either commits. -/
theorem C7_withdrawals_by_read_order (db : DB) (w id1 id2 : String) (now1 now2 : Nat)
    (hb : balanceOf db w = 100) (sched : List Bool)
    (hlen : sched.length = 10) (hturns : sched.count false = 5) :
    balanceOf (interleave db (Call.new (Env.ok id1 now1) ⟨w, "WITHDRAW", 80⟩)
        (Call.new (Env.ok id2 now2) ⟨w, "WITHDRAW", 80⟩) sched).1 w = 20 ∧
      (interleave db (Call.new (Env.ok id1 now1) ⟨w, "WITHDRAW", 80⟩)
        (Call.new (Env.ok id2 now2) ⟨w, "WITHDRAW", 80⟩) sched).2.1.stage =
        withdrawalEnd (readsAfterCommit false sched) ∧
      (interleave db (Call.new (Env.ok id1 now1) ⟨w, "WITHDRAW", 80⟩)
        (Call.new (Env.ok id2 now2) ⟨w, "WITHDRAW", 80⟩) sched).2.2.stage =
        withdrawalEnd (readsAfterCommit true sched) := by
  have hrow : ∃ r, selectWallet db w = some r ∧ r.Balance = 100 := by
    unfold balanceOf at hb
    cases hsel : selectWallet db w with
    | none =>
      rw [hsel] at hb
      cases hb
    | some r =>
      rw [hsel] at hb
      exact ⟨r, rfl, hb⟩
  obtain ⟨r, hsel, hr100⟩ := hrow
  have hr0 : selectWallet ⟨[⟨"w", 100⟩], []⟩ "w" = some ⟨"w", r.Balance⟩ := by
    rw [hr100]
    decide
  have hmem : sched ∈ schedules 10 5 := by
    have h := mem_schedules sched
    rwa [hlen, hturns] at h
  obtain ⟨hc1, hc2, hc3⟩ := interleave_canonical sched hmem
  obtain ⟨hs1, hs2, hs3⟩ := interleave_onCanonical w id1 id2 now1 now2 sched db
    ⟨[⟨"w", 100⟩], []⟩ .start .start r hsel hr0 (by simp) (by simp)
  refine ⟨?_, ?_, ?_⟩
  · exact hs3.trans hc1
  · exact withdrawalEnd_of_onCanonical _ _ (hs1.symm.trans hc2)
  · exact withdrawalEnd_of_onCanonical _ _ (hs2.symm.trans hc3)

/-- Witness for C7: beside a second wallet, the first call commits on its fifth turn and
the second call reads on the turn after that; the second call is refused. -/
theorem C7_withdrawals_by_read_order_witness :
    balanceOf (interleave ⟨[⟨"v", 7⟩, ⟨"w", 100⟩], []⟩
        (Call.new (Env.ok "op-1" 1) ⟨"w", "WITHDRAW", 80⟩)
        (Call.new (Env.ok "op-2" 2) ⟨"w", "WITHDRAW", 80⟩)
        [false, false, false, true, false, false, true, true, true, true]).1 "w" = 20 ∧
      (interleave ⟨[⟨"v", 7⟩, ⟨"w", 100⟩], []⟩
        (Call.new (Env.ok "op-1" 1) ⟨"w", "WITHDRAW", 80⟩)
        (Call.new (Env.ok "op-2" 2) ⟨"w", "WITHDRAW", 80⟩)
        [false, false, false, true, false, false, true, true, true, true]).2.1.stage =
        withdrawalEnd (readsAfterCommit false
          [false, false, false, true, false, false, true, true, true, true]) ∧
      (interleave ⟨[⟨"v", 7⟩, ⟨"w", 100⟩], []⟩
        (Call.new (Env.ok "op-1" 1) ⟨"w", "WITHDRAW", 80⟩)
        (Call.new (Env.ok "op-2" 2) ⟨"w", "WITHDRAW", 80⟩)
        [false, false, false, true, false, false, true, true, true, true]).2.2.stage =
        withdrawalEnd (readsAfterCommit true
          [false, false, false, true, false, false, true, true, true, true]) :=
  C7_withdrawals_by_read_order ⟨[⟨"v", 7⟩, ⟨"w", 100⟩], []⟩ "w" "op-1" "op-2" 1 2 (by decide)
    [false, false, false, true, false, false, true, true, true, true] rfl (by decide)

/-- The read order in three schedules: in the first the second call reads after the first
call's commit, in the second both read before either commits, in the third the first call
reads after the second call's commit. -/
theorem readsAfterCommit_examples :
    readsAfterCommit true [false, false, false, true, false, false, true, true, true, true] =
        true ∧
      readsAfterCommit false [false, false, false, true, false, false, true, true, true, true] =
        false ∧
      readsAfterCommit true [false, false, true, true, false, false, false, true, true, true] =
        false ∧
      readsAfterCommit false [false, false, true, true, false, false, false, true, true, true] =
        false ∧
      readsAfterCommit false [true, true, true, true, false, true, false, false, false, false] =
        true ∧
      withdrawalEnd true = .returned (some .InsufficientFundsError) (some .active) ∧
      withdrawalEnd false = .returned none (some .committed) := by
  decide

/-! ## Unknown operation kinds -/

/-- The errors the lookup stage returns are never an `InsufficientFundsError`. -/
theorem findOrCreateWallet_error (env : Env) (db : DB) (req : WalletOperationRequest)
    (e : Err) (h : (findOrCreateWallet env db req).1 = .error e) :
    e.asInsufficientFunds = false := by
  unfold findOrCreateWallet GetWallet CreateWallet at h
  cases hs : env.selectErr with
  | some m =>
    simp only [hs, Err.isErrNoRows] at h
    simp only [Bool.false_eq_true, if_false, Except.error.injEq] at h
    rw [← h]
    rfl
  | none =>
    cases hr : selectWallet db req.WalletID with
    | some r => simp [hs, hr] at h
    | none =>
      cases hc : env.createErr with
      | some m =>
        simp only [hs, hr, hc, Err.isErrNoRows, if_true, Except.error.injEq] at h
        rw [← h]
        rfl
      | none => simp [hs, hr, hc, Err.isErrNoRows] at h

/-- C11: for every request whose kind is neither `"DEPOSIT"` nor `"WITHDRAW"`, whatever
the store failures, `ProcessOperation` returns an error that is not an
`InsufficientFundsError`, leaves the ledger as it was and leaves every wallet's balance as
it was; when `BeginTx`, the `SELECT` and the `INSERT INTO wallets` do not fail the error is
the one built for an invalid operation type. -/
theorem C11_unknown_kind_rejected (env : Env) (db : DB) (req : WalletOperationRequest)
    (hd : req.OperationType ≠ "DEPOSIT") (hw : req.OperationType ≠ "WITHDRAW") :
    (∃ e, (ProcessOperation env db req).err = some e ∧ e.asInsufficientFunds = false) ∧
      (ProcessOperation env db req).db.operations = db.operations ∧
      (∀ v, balanceOf (ProcessOperation env db req).db v = balanceOf db v) ∧
      (env.beginErr = none → env.selectErr = none → env.createErr = none →
        (ProcessOperation env db req).err =
          some (.msg "database.ProcessOperation: invalid operation type")) := by
  have hops := findOrCreateWallet_operations env db req
  have hbal := findOrCreateWallet_balanceOf env db req
  have hnb : ∀ wallet, newBalance wallet req =
      .error (.msg "database.ProcessOperation: invalid operation type") := by
    intro wallet
    unfold newBalance
    rw [if_neg hd, if_neg hw]
  refine ⟨?_, ?_, ?_, ?_⟩
  · unfold ProcessOperation
    cases env.beginErr with
    | some m => exact ⟨_, rfl, rfl⟩
    | none =>
      rcases hf : findOrCreateWallet env db req with ⟨res, db1⟩
      cases res with
      | error e =>
        refine ⟨e, rfl, ?_⟩
        apply findOrCreateWallet_error env db req
        rw [hf]
      | ok wallet =>
        simp only [hnb]
        exact ⟨_, rfl, rfl⟩
  · unfold ProcessOperation
    cases env.beginErr with
    | some m => rfl
    | none =>
      rcases hf : findOrCreateWallet env db req with ⟨res, db1⟩
      rw [hf] at hops
      cases res with
      | error e => exact hops
      | ok wallet =>
        simp only [hnb]
        exact hops
  · intro v
    unfold ProcessOperation
    cases env.beginErr with
    | some m => rfl
    | none =>
      rcases hf : findOrCreateWallet env db req with ⟨res, db1⟩
      have hb := hbal v
      rw [hf] at hb
      cases res with
      | error e => exact hb
      | ok wallet =>
        simp only [hnb]
        exact hb
  · intro hb hs hc
    unfold ProcessOperation
    rw [hb, findOrCreateWallet_eq env db req hs hc]
    simp only [hnb]

/-- Witness for C11: a request of kind `"TRANSFER"` on an existing wallet. -/
theorem C11_unknown_kind_rejected_witness :
    (ProcessOperation (Env.ok "op-1" 0) ⟨[⟨"w", 10⟩], []⟩ ⟨"w", "TRANSFER", 5⟩).err =
      some (.msg "database.ProcessOperation: invalid operation type") :=
  (C11_unknown_kind_rejected (Env.ok "op-1" 0) ⟨[⟨"w", 10⟩], []⟩ ⟨"w", "TRANSFER", 5⟩
    (by decide) (by decide)).2.2.2 rfl rfl rfl

/-! ## Overflow of a deposit -/

/-- C12: with balances as 64-bit signed integers, for every stored balance `b ≥ 0` and
`DEPOSIT` amount `a > 0` whose sum exceeds `maxInt`, `ProcessOperation` rejects the
operation whatever the store failures: it returns an error, the ledger and every wallet's
balance are as before, so the wrapped-around value of Go's `b + a` is not stored; when no
call is failed by the driver the error is that of the `UPDATE`, which the table refuses
because the wrapped-around value is negative. -/
theorem C12_overflowing_deposit_rejected (env : Env) (id : String) (now : Nat) (db : DB)
    (req : WalletOperationRequest) (hk : req.OperationType = "DEPOSIT")
    (hb0 : 0 ≤ balanceOf db req.WalletID) (hbmax : balanceOf db req.WalletID ≤ maxInt)
    (ha0 : 0 < req.Amount) (hamax : req.Amount ≤ maxInt)
    (hover : maxInt < balanceOf db req.WalletID + req.Amount) :
    (ProcessOperation env db req).err ≠ none ∧
      (ProcessOperation env db req).db.operations = db.operations ∧
      (∀ v, balanceOf (ProcessOperation env db req).db v = balanceOf db v) ∧
      balanceOf (ProcessOperation env db req).db req.WalletID ≠
        goAdd (balanceOf db req.WalletID) req.Amount ∧
      (ProcessOperation (Env.ok id now) db req).err =
        some (.wrap "database.ProcessOperation: update wallet error" balanceRefused) := by
  have href := goAdd_refused_of_overflow _ _ hb0 hbmax ha0 hamax hover
  have hops := findOrCreateWallet_operations env db req
  have hbal := findOrCreateWallet_balanceOf env db req
  have hneg : goAdd (balanceOf db req.WalletID) req.Amount < 0 := by
    unfold balanceColumnAccepts at href
    simpa using href
  have hmain : (ProcessOperation env db req).err ≠ none ∧
      (ProcessOperation env db req).db.operations = db.operations ∧
      (∀ v, balanceOf (ProcessOperation env db req).db v = balanceOf db v) := by
    rcases ProcessOperation_db_cases env db req with
      ⟨he, hd⟩ | ⟨_, _, _, _, wallet, nb, hw, hn, hacc, _⟩
    · refine ⟨he, ?_⟩
      rcases hd with hd | hd <;> rw [hd]
      · exact ⟨rfl, fun _ => rfl⟩
      · exact ⟨hops, hbal⟩
    · exfalso
      rw [(findOrCreateWallet_ok env db req wallet hw).1] at hn
      unfold newBalance at hn
      rw [if_pos hk, currentWallet_balance] at hn
      simp only [Except.ok.injEq] at hn
      rw [← hn, href] at hacc
      cases hacc
  refine ⟨hmain.1, hmain.2.1, hmain.2.2, ?_, ?_⟩
  · rw [hmain.2.2]
    omega
  · rw [ProcessOperation_ok]
    unfold newBalance
    rw [if_pos hk, currentWallet_balance]
    simp only [href, Bool.false_eq_true, if_false]

/-- Witness for C12: `DEPOSIT 1000` on a stored balance of `9223372036854775000` is
refused and the balance stays. -/
theorem C12_overflowing_deposit_rejected_witness :
    (ProcessOperation (Env.ok "op-1" 0) ⟨[⟨"w", 9223372036854775000⟩], []⟩
        ⟨"w", "DEPOSIT", 1000⟩).err ≠ none ∧
      balanceOf (ProcessOperation (Env.ok "op-1" 0) ⟨[⟨"w", 9223372036854775000⟩], []⟩
        ⟨"w", "DEPOSIT", 1000⟩).db "w" = 9223372036854775000 :=
  ⟨(C12_overflowing_deposit_rejected (Env.ok "op-1" 0) "op-1" 0
      ⟨[⟨"w", 9223372036854775000⟩], []⟩ ⟨"w", "DEPOSIT", 1000⟩ rfl (by decide) (by decide)
      (by decide) (by decide) (by decide)).1, by decide⟩

/-! ## Reading a balance -/

/-- C13: when the `SELECT` does not fail, `GetWalletBalance` returns the id and the stored
balance of a wallet that has a row, and an error matching `sql.ErrNoRows` for a wallet that
has none; and after `ProcessOperation` has accepted `DEPOSIT 300` on a wallet that had no
row, `GetWalletBalance` returns that wallet with balance 300. -/
theorem C13_balance_read (env : Env) (db : DB) (walletID id : String) (now : Nat)
    (hs : env.selectErr = none) :
    (∀ r, selectWallet db walletID = some r →
        GetWalletBalance env db walletID = .ok { WalletID := walletID, Balance := r.Balance }) ∧
      (selectWallet db walletID = none →
        ∃ e, GetWalletBalance env db walletID = .error e ∧ e.isErrNoRows = true) ∧
      (selectWallet db walletID = none →
        (ProcessOperation (Env.ok id now) db ⟨walletID, "DEPOSIT", 300⟩).err = none ∧
          GetWalletBalance env
            (ProcessOperation (Env.ok id now) db ⟨walletID, "DEPOSIT", 300⟩).db walletID =
            .ok { WalletID := walletID, Balance := 300 }) := by
  have hfound : ∀ (d : DB) (r : Wallets), selectWallet d walletID = some r →
      GetWalletBalance env d walletID = .ok { WalletID := walletID, Balance := r.Balance } := by
    intro d r hr
    have hid := (selectWallet_some_mem d walletID r hr).2
    unfold GetWalletBalance GetWallet
    rw [hs, hr]
    simp only [hid]
  refine ⟨hfound db, ?_, ?_⟩
  · intro habs
    unfold GetWalletBalance GetWallet
    rw [hs, habs]
    exact ⟨_, rfl, rfl⟩
  · intro habs
    have hb : balanceOf db walletID = 0 := by
      unfold balanceOf
      rw [habs]
    have hadd : goAdd 0 300 = 300 := by decide
    have hacc : balanceColumnAccepts 300 = true := by decide
    have hp : ProcessOperation (Env.ok id now) db ⟨walletID, "DEPOSIT", 300⟩ =
        { err := none,
          db := insertOperation (setBalance (withWallet db walletID) 300 walletID)
            (mkOperation (Env.ok id now) ⟨walletID, "DEPOSIT", 300⟩),
          tx := some .committed } := by
      rw [ProcessOperation_ok]
      simp only [newBalance, currentWallet_balance, hb, if_true, hadd, hacc]
    rw [hp]
    refine ⟨rfl, ?_⟩
    have hsel := selectWallet_setBalance_same (withWallet db walletID) 300 walletID
    rw [selectWallet_withWallet] at hsel
    exact hfound _ ⟨(currentWallet db walletID).WalletID, 300⟩
      (by rw [selectWallet_insertOperation, hsel]; rfl)

/-- Witness for C13: the empty store, wallet `"w"`. -/
theorem C13_balance_read_witness :
    GetWalletBalance (Env.ok "q" 1)
        (ProcessOperation (Env.ok "op-1" 0) DB.empty ⟨"w", "DEPOSIT", 300⟩).db "w" =
      .ok { WalletID := "w", Balance := 300 } :=
  ((C13_balance_read (Env.ok "q" 1) DB.empty "w" "op-1" 0 rfl).2.2 (by decide)).2

/-! ## The handlers -/

/-- When the `select` of `HandleWalletOperation` receives before the second goroutine has
closed a channel, a valid request is answered from the message of the first goroutine: 200
with the balance of `GetWalletBalance` when both calls succeed, otherwise 404 for an error
matching `sql.ErrNoRows`, else 403 for an `InsufficientFundsError`, else 500; and
`GetWalletBalance` is called only after `ProcessOperation` has succeeded. -/
theorem HandleWalletOperation_beforeClose {σ : Type} (uuidParses : String → Bool)
    (handler : WalletOperationHandler σ) (pick : Bool) (s : σ) (req : WalletOperationRequest)
    (hv : validateRequest uuidParses req = none) :
    (∀ e, (handler.ProcessOperation s req).1 = some e →
        (HandleWalletOperation uuidParses handler ⟨.beforeClose, pick⟩ s req).calls =
            [.ProcessOperation req] ∧
          (HandleWalletOperation uuidParses handler ⟨.beforeClose, pick⟩ s req).reply =
            if e.isErrNoRows then logError e 404 "wallet not found"
            else if e.asInsufficientFunds then logError e 403 "balance cant become negative"
            else logError e 500 "internal server error") ∧
      ((handler.ProcessOperation s req).1 = none →
        (HandleWalletOperation uuidParses handler ⟨.beforeClose, pick⟩ s req).calls =
            [.ProcessOperation req, .GetWalletBalance req.WalletID] ∧
          (HandleWalletOperation uuidParses handler ⟨.beforeClose, pick⟩ s req).reply =
            match handler.GetWalletBalance (handler.ProcessOperation s req).2 req.WalletID with
            | .ok b => .json 200 (.operation req.WalletID req.OperationType b.Balance)
            | .error e =>
              if e.isErrNoRows then logError e 404 "wallet not found"
              else if e.asInsufficientFunds then logError e 403 "balance cant become negative"
              else logError e 500 "internal server error") := by
  unfold HandleWalletOperation operationWorker
  rw [hv]
  rcases hp : handler.ProcessOperation s req with ⟨perr, s1⟩
  constructor
  · intro e he
    simp only at he
    subst he
    simp only [selectReceive]
    exact ⟨trivial, trivial⟩
  · intro he
    simp only at he
    subst he
    simp only
    cases handler.GetWalletBalance s1 req.WalletID with
    | error e => simp only [selectReceive]; exact ⟨trivial, trivial⟩
    | ok b => simp only [selectReceive]; exact ⟨trivial, trivial⟩

/-- The handler of `HandleGetWalletBalance`, for a wallet id that parses: 200 with the
response of `GetWalletBalance`, 404 for an error matching `sql.ErrNoRows`, 500 for any
other error. -/
theorem HandleGetWalletBalance_reply {σ : Type} (uuidParses : String → Bool)
    (balanceGetter : WalletBalanceGetter σ) (s : σ) (walletID : String)
    (hu : uuidParses walletID = true) :
    (HandleGetWalletBalance uuidParses balanceGetter s walletID).1 =
      match balanceGetter.GetWalletBalance s walletID with
      | .ok b => .json 200 (.balance b)
      | .error e =>
        if e.isErrNoRows then .json 404 (.error "wallet not found: no such a wallet")
        else .json 500 (.error ("internal server error: " ++ e.Error)) := by
  unfold HandleGetWalletBalance
  rw [hu]
  simp only [Bool.not_true, Bool.false_eq_true, if_false]
  cases balanceGetter.GetWalletBalance s walletID with
  | ok b => rfl
  | error e =>
    simp only
    split <;> rfl

/-- The handler over the real `Storage`, when the `select` receives before any channel is
closed: `DEPOSIT 500` on an unknown wallet is answered 200 with balance 500, a `WITHDRAW 5`
on an unknown wallet 403. -/
theorem HandleWalletOperation_Storage_examples :
    (HandleWalletOperation (fun _ => true) (Storage (Env.ok "op-1" 0) (Env.ok "q" 1))
        ⟨.beforeClose, true⟩ DB.empty
        ⟨"a1b2c3d4-e5f6-7890-1234-567890abcdef", "DEPOSIT", 500⟩).reply =
        .json 200 (.operation "a1b2c3d4-e5f6-7890-1234-567890abcdef" "DEPOSIT" 500) ∧
      (HandleWalletOperation (fun _ => true) (Storage (Env.ok "op-1" 0) (Env.ok "q" 1))
        ⟨.beforeClose, true⟩ DB.empty
        ⟨"a1b2c3d4-e5f6-7890-1234-567890abcdef", "WITHDRAW", 5⟩).reply =
        .json 403 (.error "balance cant become negative: insufficient funds") := by
  decide

/-- C14 fails at these inputs.  For the valid request of the tests and a storage whose
`ProcessOperation` returns `InsufficientFundsError`, the handler answers 403 when its
`select` receives before the channels are closed, but when both goroutines have finished
first and the `select` takes the closed `balanceChan` it dereferences a nil balance; and
when both calls succeed and the `select` takes the closed `errChan`, it calls `Error()`
on a nil error instead of answering 200. -/
theorem C14_select_may_take_closed_channel :
    (HandleWalletOperation (fun _ => true)
        (mockWalletOperationHandler (some .InsufficientFundsError)
          (.ok ⟨"a1b2c3d4-e5f6-7890-1234-567890abcdef", 1000⟩))
        ⟨.beforeClose, true⟩ () ⟨"a1b2c3d4-e5f6-7890-1234-567890abcdef", "WITHDRAW", 1000⟩).reply =
        .json 403 (.error "balance cant become negative: insufficient funds") ∧
      (HandleWalletOperation (fun _ => true)
        (mockWalletOperationHandler (some .InsufficientFundsError)
          (.ok ⟨"a1b2c3d4-e5f6-7890-1234-567890abcdef", 1000⟩))
        ⟨.bothClosed, true⟩ () ⟨"a1b2c3d4-e5f6-7890-1234-567890abcdef", "WITHDRAW", 1000⟩).reply =
        .nilDereference ∧
      (HandleWalletOperation (fun _ => true)
        (mockWalletOperationHandler none (.ok ⟨"a1b2c3d4-e5f6-7890-1234-567890abcdef", 1000⟩))
        ⟨.beforeClose, false⟩ () ⟨"a1b2c3d4-e5f6-7890-1234-567890abcdef", "DEPOSIT", 1000⟩).reply =
        .json 200 (.operation "a1b2c3d4-e5f6-7890-1234-567890abcdef" "DEPOSIT" 1000) ∧
      (HandleWalletOperation (fun _ => true)
        (mockWalletOperationHandler none (.ok ⟨"a1b2c3d4-e5f6-7890-1234-567890abcdef", 1000⟩))
        ⟨.errChanClosed, false⟩ () ⟨"a1b2c3d4-e5f6-7890-1234-567890abcdef", "DEPOSIT", 1000⟩).reply =
        .nilDereference := by
  decide

/-- C15: `validateRequest` returns no error exactly when the wallet id is not empty and
parses as a UUID, the kind is `"DEPOSIT"` or `"WITHDRAW"` and the amount is positive;
otherwise it returns the error of the first failing check, in the order empty wallet id,
wallet id format, kind, amount; and for a request it refuses, `HandleWalletOperation`
answers 400 with that error and makes no call on the storage. -/
theorem C15_validateRequest_checks {σ : Type} (uuidParses : String → Bool)
    (handler : WalletOperationHandler σ) (sched : Schedule) (s : σ)
    (req : WalletOperationRequest) :
    (validateRequest uuidParses req = none ↔
        req.WalletID ≠ "" ∧ uuidParses req.WalletID = true ∧
          (req.OperationType = "DEPOSIT" ∨ req.OperationType = "WITHDRAW") ∧ 0 < req.Amount) ∧
      (req.WalletID = "" → validateRequest uuidParses req = some (.msg "empty wallet id")) ∧
      (req.WalletID ≠ "" → uuidParses req.WalletID = false →
        validateRequest uuidParses req = some (.msg "invalid wallet id format")) ∧
      (req.WalletID ≠ "" → uuidParses req.WalletID = true →
        ¬ (req.OperationType = "DEPOSIT" ∨ req.OperationType = "WITHDRAW") →
        validateRequest uuidParses req =
          some (.msg "operationType must be DEPOSIT or WITHDRAW")) ∧
      (req.WalletID ≠ "" → uuidParses req.WalletID = true →
        (req.OperationType = "DEPOSIT" ∨ req.OperationType = "WITHDRAW") → req.Amount ≤ 0 →
        validateRequest uuidParses req = some (.msg "amount must be a positive integer")) ∧
      (∀ e, validateRequest uuidParses req = some e →
        (HandleWalletOperation uuidParses handler sched s req).reply =
            .json 400 (.error ("bad request data: " ++ e.Error)) ∧
          (HandleWalletOperation uuidParses handler sched s req).calls = []) := by
  refine ⟨?_, ?_, ?_, ?_, ?_, ?_⟩
  · unfold validateRequest
    by_cases h1 : req.WalletID = ""
    · simp [h1]
    · by_cases h2 : uuidParses req.WalletID = true
      · by_cases h3 : req.OperationType = "DEPOSIT" ∨ req.OperationType = "WITHDRAW"
        · by_cases h4 : req.Amount ≤ 0
          · have h5 : ¬ 0 < req.Amount := not_lt.mpr h4
            rcases h3 with h3 | h3 <;> simp [h1, h2, h3, h4, h5]
          · have h5 : 0 < req.Amount := not_le.mp h4
            rcases h3 with h3 | h3 <;> simp [h1, h2, h3, h5]
        · have h3a : ¬ req.OperationType = "DEPOSIT" := fun h => h3 (Or.inl h)
          have h3b : ¬ req.OperationType = "WITHDRAW" := fun h => h3 (Or.inr h)
          simp [h1, h2, h3a, h3b]
      · simp [h1, h2]
  · intro h1
    unfold validateRequest
    rw [if_pos h1]
  · intro h1 h2
    unfold validateRequest
    rw [if_neg h1, h2]
    rfl
  · intro h1 h2 h3
    have h3a : ¬ req.OperationType = "DEPOSIT" := fun h => h3 (Or.inl h)
    have h3b : ¬ req.OperationType = "WITHDRAW" := fun h => h3 (Or.inr h)
    unfold validateRequest
    rw [if_neg h1, h2]
    simp [h3a, h3b]
  · intro h1 h2 h3 h4
    unfold validateRequest
    rw [if_neg h1, h2]
    rcases h3 with h3 | h3 <;> simp [h3, h4]
  · intro e he
    unfold HandleWalletOperation
    rw [he]
    exact ⟨rfl, rfl⟩

/-- Witness for C15: the request of the test "Invalid amount" (amount -1000) is answered
400 without a call on the storage. -/
theorem C15_validateRequest_checks_witness :
    (HandleWalletOperation (fun _ => true)
        (mockWalletOperationHandler none (.ok ⟨"a1b2c3d4-e5f6-7890-1234-567890abcdef", 1000⟩))
        ⟨.beforeClose, true⟩ ()
        ⟨"a1b2c3d4-e5f6-7890-1234-567890abcdef", "DEPOSIT", -1000⟩).reply =
        .json 400 (.error ("bad request data: " ++
          (Err.msg "amount must be a positive integer").Error)) ∧
      (HandleWalletOperation (fun _ => true)
        (mockWalletOperationHandler none (.ok ⟨"a1b2c3d4-e5f6-7890-1234-567890abcdef", 1000⟩))
        ⟨.beforeClose, true⟩ ()
        ⟨"a1b2c3d4-e5f6-7890-1234-567890abcdef", "DEPOSIT", -1000⟩).calls = [] :=
  (C15_validateRequest_checks (fun _ => true)
    (mockWalletOperationHandler none (.ok ⟨"a1b2c3d4-e5f6-7890-1234-567890abcdef", 1000⟩))
    ⟨.beforeClose, true⟩ ()
    ⟨"a1b2c3d4-e5f6-7890-1234-567890abcdef", "DEPOSIT", -1000⟩).2.2.2.2.2
    (.msg "amount must be a positive integer") (by decide)

end Wallet
